import Mathlib

/-!
Verification development for the `thirdsession` RAG subsystem
(`src/003_third_session/src/thirdsession`).

The Python code is shallowly embedded: Python scalar values become `PyVal`
(machine floats are modelled as exact rationals `ℚ`), dictionaries with the
fixed key sets the code reads become structures with `Option`-valued fields
(a key that is absent and a key explicitly bound to `None` are identified:
every access in the modelled code goes through `dict.get`, which collapses
the two), and stateful services become explicit state-passing functions.
-/

namespace ThirdSession

open List

/-- Python scalar values that can sit in a document or metadata field.
Numbers model both `int` and `float` (exact arithmetic over `ℚ`). -/
inductive PyVal where
  | str (s : String)
  | num (q : ℚ)
deriving Repr, DecidableEq

/-- Python truthiness of a scalar: `""` and `0` are falsy. -/
def PyVal.truthy : PyVal → Bool
  | .str s => !(s == "")
  | .num q => !(q == 0)

/-- Truthiness of an optional field (`None`/absent is falsy). -/
def truthyOpt : Option PyVal → Bool
  | some v => v.truthy
  | none => false

/-- Python `a or b` on optional field values: returns `a` when truthy,
otherwise `b` (which is returned even when falsy, as in Python). -/
def pyOr (a b : Option PyVal) : Option PyVal :=
  match a with
  | some v => if v.truthy then some v else b
  | none => b

/-- Python `a or d` where the final operand `d` is a literal value:
returns `a` when truthy, otherwise `d`. -/
def pyOrEnd (a : Option PyVal) (d : PyVal) : PyVal :=
  match a with
  | some v => if v.truthy then v else d
  | none => d

/-- Models Python `str()` on the scalar values used here. Integral rationals
print without a fractional part, mirroring `str` on `int`. -/
def pyStr : PyVal → String
  | .str s => s
  | .num q => if q.den = 1 then toString q.num else toString q

/-- Python `str()` of an optional field (`str(None) = "None"`). -/
def pyStrOpt : Option PyVal → String
  | some v => pyStr v
  | none => "None"

/-- Digits of a decimal string, as a natural number, if every character is
a digit and the string is nonempty. -/
def parseDigits : List Char → Option ℕ
  | [] => none
  | l =>
    if l.all Char.isDigit then
      some (l.foldl (fun acc c => acc * 10 + (c.toNat - 48)) 0)
    else none

/-- Models Python `float(s)` on plain decimal literals with an optional
sign and fractional part. Exotic accepted forms (exponents, `inf`,
underscores, surrounding whitespace) are outside the value domain used by
the claims; on those this parser fails like it does on any unparsable
string. -/
def parseFloat (s : String) : Option ℚ :=
  let l := s.toList
  let (sign, body) : ℚ × List Char :=
    match l with
    | '-' :: rest => (-1, rest)
    | '+' :: rest => (1, rest)
    | _ => (1, l)
  let intPart := body.takeWhile Char.isDigit
  let rest := body.dropWhile Char.isDigit
  match rest with
  | [] => (parseDigits intPart).map (fun n => sign * n)
  | '.' :: frac =>
    if intPart = [] ∧ frac = [] then none
    else if frac.all Char.isDigit ∧ intPart.all Char.isDigit ∧
        (intPart ≠ [] ∨ frac ≠ []) then
      let ip : ℚ := (intPart.foldl (fun acc c => acc * 10 + (c.toNat - 48)) 0 : ℕ)
      let fp : ℚ := (frac.foldl (fun acc c => acc * 10 + (c.toNat - 48)) 0 : ℕ)
      some (sign * (ip + fp / (10 ^ frac.length)))
    else none
  | _ => none

/-- `MergeNode._to_float` / `PostprocessNode._to_float`: numbers pass
through, strings are parsed with a fallback of `0.0`, anything else
(including `None`) is `0.0`. -/
def valToFloat : PyVal → ℚ
  | .num q => q
  | .str s => (parseFloat s).getD 0

/-- `_to_float` applied to a `dict.get` result (absent/`None` gives `0.0`). -/
def pyToFloat : Option PyVal → ℚ
  | none => 0
  | some v => valToFloat v

/-- Maximal runs of characters satisfying `p`, as produced by a regex
`findall` of `p+` or by `str.split()` (for `p` = non-whitespace). The
accumulator carries the current run in reverse. -/
def splitRunsAux (p : Char → Bool) (cur : List Char) :
    List Char → List (List Char)
  | [] => if cur = [] then [] else [cur.reverse]
  | c :: rest =>
    if p c then splitRunsAux p (c :: cur) rest
    else if cur = [] then splitRunsAux p [] rest
    else cur.reverse :: splitRunsAux p [] rest

/-- Maximal runs of characters satisfying `p`. -/
def splitRuns (p : Char → Bool) (l : List Char) : List (List Char) :=
  splitRunsAux p [] l

/-- Join character runs with single spaces (the `" ".join(...)` step). -/
def joinWithSpace : List (List Char) → List Char
  | [] => []
  | [t] => t
  | t :: rest => t ++ ' ' :: joinWithSpace rest

/-- Python `" ".join(s.split())`: collapse whitespace runs to single
spaces and strip the ends. -/
def collapseWs (s : String) : String :=
  String.mk (joinWithSpace (splitRuns (fun c => !c.isWhitespace) s.toList))

/-- Python `str.strip()` on a character list. -/
def stripChars (l : List Char) : List Char :=
  ((l.dropWhile Char.isWhitespace).reverse.dropWhile Char.isWhitespace).reverse

/-- Python `str.strip()`. -/
def pyStripStr (s : String) : String :=
  String.mk (stripChars s.toList)

/-- Python slicing `s[:n]`. -/
def stringTake (n : ℕ) (s : String) : String :=
  String.mk (s.toList.take n)

/-- The metadata dictionary keys that the embedded code ever reads.
Unread keys cannot influence any modelled computation and every stage
passes the metadata object through unchanged, so they are omitted. -/
structure Meta where
  source_id : Option PyVal := none
  id : Option PyVal := none
  score : Option PyVal := none
  score_type : Option PyVal := none
  similarity : Option PyVal := none
  distance : Option PyVal := none
  title : Option PyVal := none
  access_level : Option PyVal := none
  language : Option PyVal := none
deriving Repr, DecidableEq

/-- A document given as a Python `dict`, restricted to the keys the
embedded code reads. `metadata = none` models a missing, `None`, or
non-`dict` metadata value (the code replaces all of these by `{}` at every
read site that dereferences it). -/
structure DocDict where
  doc_id : Option PyVal := none
  id : Option PyVal := none
  source_id : Option PyVal := none
  title : Option PyVal := none
  content : Option PyVal := none
  page_content : Option PyVal := none
  snippet : Option PyVal := none
  metadata : Option Meta := none
  score : Option PyVal := none
  score_type : Option PyVal := none
  similarity : Option PyVal := none
  distance : Option PyVal := none
deriving Repr, DecidableEq

/-- A document given as an object with attributes (LangChain-style);
`strRepr` models `str(doc)`. -/
structure DocObj where
  doc_id : Option PyVal := none
  id : Option PyVal := none
  page_content : Option PyVal := none
  metadata : Option Meta := none
  strRepr : String := ""
deriving Repr, DecidableEq

/-- The heterogeneous document type accepted by the nodes. -/
inductive Doc where
  | dict (d : DocDict)
  | obj (o : DocObj)
deriving Repr, DecidableEq

/-! ## MergeNode (`core/rag/nodes/merge_node.py`) -/

/-- `MergeNode.__init__` configuration after clamping
(`max(1, top_k)`, `max(1, max_per_source)`). -/
structure MergeCfg where
  topK : ℕ
  maxPerSource : ℕ
deriving Repr, DecidableEq

/-- `MergeNode.__init__`: clamps `top_k` and `max_per_source` to at
least 1. Arguments are arbitrary Python ints. -/
def mkMergeCfg (top_k max_per_source : ℤ) : MergeCfg :=
  { topK := (max 1 top_k).toNat, maxPerSource := (max 1 max_per_source).toNat }

/-- The dict produced by `MergeNode._to_doc_dict` before the score is
overwritten by `_normalize_groups`. -/
structure MDocRaw where
  doc_id : Option PyVal
  source_id : Option PyVal
  content : PyVal
  metadata : Meta
  score : PyVal
  score_type : PyVal
deriving Repr, DecidableEq

/-- `MergeNode._to_doc_dict`. -/
def mergeToDocDict : Doc → MDocRaw
  | .dict d =>
    let m := d.metadata.getD {}
    { doc_id := pyOr d.doc_id d.id
      source_id := pyOr d.source_id (pyOr m.source_id d.id)
      content := pyOrEnd (pyOr d.content d.page_content) (.str "")
      metadata := m
      score := d.score.getD (.num 0)
      score_type := pyOrEnd (pyOr d.score_type m.score_type) (.str "similarity") }
  | .obj o =>
    let m := o.metadata.getD {}
    { doc_id := pyOr o.doc_id o.id
      source_id := pyOr m.source_id m.id
      content := pyOrEnd o.page_content (.str o.strRepr)
      metadata := m
      score := m.score.getD (.num 0)
      score_type := m.score_type.getD (.str "similarity") }

/-- `MergeNode._normalize_score`: distance scores map through
`1/(1 + max(value, 0))`, everything else passes through `_to_float`. -/
def normalizeScore (score : PyVal) (score_type : PyVal) : ℚ :=
  let value := valToFloat score
  let ntype := pyStr (if score_type.truthy then score_type else .str "similarity")
  if ntype = "distance" then 1 / (1 + max value 0) else value

/-- A document after `MergeNode._normalize_groups`: the common dict shape
with the score rewritten to similarity space. -/
structure MDoc where
  doc_id : Option PyVal
  source_id : Option PyVal
  content : PyVal
  metadata : Meta
  score : ℚ
  score_type : String
deriving Repr, DecidableEq

/-- One document through `_to_doc_dict` plus the score/score_type
rewrite performed inside `_normalize_groups`. -/
def mergeNormDoc (doc : Doc) : MDoc :=
  let raw := mergeToDocDict doc
  { doc_id := raw.doc_id
    source_id := raw.source_id
    content := raw.content
    metadata := raw.metadata
    score := normalizeScore raw.score raw.score_type
    score_type := "similarity" }

/-- `MergeNode._normalize_groups`: flatten the groups and normalize each
document. -/
def mergeNormalizeGroups (groups : List (List Doc)) : List MDoc :=
  (groups.map (fun g => g.map mergeNormDoc)).flatten

/-- `MergeNode._doc_key`. -/
def mergeDocKey (d : MDoc) : String :=
  match d.source_id with
  | some v => "source:" ++ pyStr v
  | none =>
    match d.doc_id with
    | some v => "doc:" ++ pyStr v
    | none => "content:" ++ pyStr d.content

/-- `_dedupe` (shared shape of `MergeNode._dedupe` and
`PostprocessNode._dedupe`): keep the first occurrence of each key. -/
def dedupeAux (key : α → String) (seen : List String) : List α → List α
  | [] => []
  | d :: rest =>
    if key d ∈ seen then dedupeAux key seen rest
    else d :: dedupeAux key (key d :: seen) rest

/-- Deduplicate by key, starting from an empty seen-set. -/
def dedupeBy (key : α → String) (docs : List α) : List α :=
  dedupeAux key [] docs

/-- The stable descending sort `sorted(docs, key=score, reverse=True)` /
`list.sort(key=score, reverse=True)`, realised as Mathlib's stable
insertion sort with the relation "score at least". -/
def sortDescBy (score : α → ℚ) (l : List α) : List α :=
  l.insertionSort (fun a b => score a ≥ score b)

/-- `_diversify`s inner loop: accept a document only while fewer than
`cap` documents with the same key have been accepted. -/
def diversifyAux (key : α → String) (cap : ℕ) (counts : String → ℕ) :
    List α → List α
  | [] => []
  | d :: rest =>
    let k := key d
    if counts k ≥ cap then diversifyAux key cap counts rest
    else d :: diversifyAux key cap (fun x => if x = k then counts x + 1 else counts x) rest

/-- `str(doc.get("source_id") or "unknown")` — the per-source bucket used
by both `_diversify` implementations. -/
def diversifyKeyOf (source_id : Option PyVal) : String :=
  pyStr (pyOrEnd source_id (.str "unknown"))

/-- `MergeNode._diversify`: sort by score descending, then cap each
source bucket at `max_per_source`. -/
def mergeDiversify (cap : ℕ) (docs : List MDoc) : List MDoc :=
  diversifyAux (fun d => diversifyKeyOf d.source_id) cap (fun _ => 0)
    (sortDescBy MDoc.score docs)

/-- `MergeNode.run`. -/
def mergeRun (cfg : MergeCfg) (groups : List (List Doc)) : List MDoc :=
  let normalized := mergeNormalizeGroups groups
  let deduped := dedupeBy mergeDocKey normalized
  let diversified := mergeDiversify cfg.maxPerSource deduped
  (sortDescBy MDoc.score diversified).take cfg.topK

/-- A merged document viewed again as a Python dict (how
`MergeNode.run`'s output looks to a second `run` call). -/
def MDoc.asDoc (d : MDoc) : Doc :=
  .dict { doc_id := d.doc_id
          source_id := d.source_id
          content := some d.content
          metadata := some d.metadata
          score := some (.num d.score)
          score_type := some (.str d.score_type) }

/-! ## PostprocessNode (`core/rag/nodes/postprocess_node.py`) -/

/-- `PostprocessNode.__init__` configuration after clamping. -/
structure PostCfg where
  topK : ℕ
  maxPerSource : ℕ
  maxCharsPerDoc : ℕ
deriving Repr, DecidableEq

/-- `PostprocessNode.__init__`: clamps `top_k` and `max_per_source` to at
least 1 and `max_chars_per_doc` to at least 100. -/
def mkPostCfg (top_k max_per_source max_chars_per_doc : ℤ) : PostCfg :=
  { topK := (max 1 top_k).toNat
    maxPerSource := (max 1 max_per_source).toNat
    maxCharsPerDoc := (max 100 max_chars_per_doc).toNat }

/-- A document after `PostprocessNode._to_doc_dict`. -/
structure PDoc where
  doc_id : Option PyVal
  source_id : Option PyVal
  title : Option PyVal
  content : PyVal
  snippet : Option PyVal
  metadata : Meta
  score : ℚ
  score_type : PyVal
deriving Repr, DecidableEq

/-- `PostprocessNode._to_doc_dict`. -/
def postToDocDict : Doc → PDoc
  | .dict d =>
    let m := d.metadata.getD {}
    { doc_id := pyOr d.doc_id d.id
      source_id := pyOr d.source_id (pyOr m.source_id d.id)
      title := d.title
      content := pyOrEnd (pyOr d.content d.page_content) (.str "")
      snippet := d.snippet
      metadata := m
      score := pyToFloat d.score
      score_type := pyOrEnd (pyOr d.score_type m.score_type) (.str "similarity") }
  | .obj o =>
    let m := o.metadata.getD {}
    { doc_id := pyOr o.doc_id o.id
      source_id := pyOr m.source_id m.id
      title := m.title
      content := pyOrEnd o.page_content (.str o.strRepr)
      snippet := none
      metadata := m
      score := pyToFloat m.score
      score_type := m.score_type.getD (.str "similarity") }

/-- `PostprocessNode._doc_key` (same rule as `MergeNode._doc_key`). -/
def postDocKey (d : PDoc) : String :=
  match d.source_id with
  | some v => "source:" ++ pyStr v
  | none =>
    match d.doc_id with
    | some v => "doc:" ++ pyStr v
    | none => "content:" ++ pyStr d.content

/-- `PostprocessNode._diversify`. -/
def postDiversify (cap : ℕ) (docs : List PDoc) : List PDoc :=
  diversifyAux (fun d => diversifyKeyOf d.source_id) cap (fun _ => 0)
    (sortDescBy PDoc.score docs)

/-- `PostprocessNode._compress_doc`: collapse whitespace in the content
and truncate it to `max_chars_per_doc` characters.
`str(compact.get("content") or "")` is modelled by `pyStr ∘ pyOrEnd`. -/
def compressDoc (maxChars : ℕ) (d : PDoc) : PDoc :=
  let content := pyStr (pyOrEnd (some d.content) (.str ""))
  { d with content := .str (stringTake maxChars (collapseWs content)) }

/-- `PostprocessNode.run`. -/
def postRun (cfg : PostCfg) (docs : List Doc) : List PDoc :=
  let normalized := docs.map postToDocDict
  let deduped := dedupeBy postDocKey normalized
  let diversified := postDiversify cfg.maxPerSource deduped
  let reranked := sortDescBy PDoc.score diversified
  let compressed := reranked.map (compressDoc cfg.maxCharsPerDoc)
  compressed.take cfg.topK

/-! ## Generic lemmas about dedupe, diversify, and the stable sort -/

section PipelineLemmas

variable {α : Type} (key : α → String)

/-- Number of elements of `l` in the bucket `k`. -/
def countKey (k : String) (l : List α) : ℕ :=
  (l.filter (fun d => key d == k)).length

theorem countKey_nil (k : String) : countKey key k ([] : List α) = 0 := rfl

theorem countKey_cons (k : String) (d : α) (l : List α) :
    countKey key k (d :: l) =
      (if key d = k then 1 else 0) + countKey key k l := by
  by_cases h : key d = k <;> simp [countKey, h, Nat.add_comm]

theorem countKey_le_of_sublist {l₁ l₂ : List α} (k : String) (h : l₁ <+ l₂) :
    countKey key k l₁ ≤ countKey key k l₂ :=
  (h.filter _).length_le

theorem countKey_eq_of_perm {l₁ l₂ : List α} (k : String) (h : l₁ ~ l₂) :
    countKey key k l₁ = countKey key k l₂ :=
  (h.filter _).length_eq

theorem dedupeAux_sublist (seen : List String) (l : List α) :
    dedupeAux key seen l <+ l := by
  induction l generalizing seen with
  | nil => simp [dedupeAux]
  | cons d rest ih =>
    rw [dedupeAux]
    split
    · exact (ih seen).cons d
    · exact (ih _).cons₂ d

theorem not_mem_keys_dedupeAux (seen : List String) (l : List α) (k : String)
    (hk : k ∈ seen) : k ∉ (dedupeAux key seen l).map key := by
  induction l generalizing seen with
  | nil => simp [dedupeAux]
  | cons d rest ih =>
    rw [dedupeAux]
    split
    · exact ih seen hk
    · next hd =>
      simp only [List.map_cons, List.mem_cons, not_or]
      refine ⟨fun hkd => hd (hkd ▸ hk), ih _ (List.mem_cons_of_mem _ hk)⟩

theorem nodup_keys_dedupeAux (seen : List String) (l : List α) :
    ((dedupeAux key seen l).map key).Nodup := by
  induction l generalizing seen with
  | nil => simp [dedupeAux]
  | cons d rest ih =>
    rw [dedupeAux]
    split
    · exact ih seen
    · simp only [List.map_cons, List.nodup_cons]
      exact ⟨not_mem_keys_dedupeAux key _ rest (key d) (List.mem_cons_self _ _), ih _⟩

theorem dedupeAux_eq_self (seen : List String) (l : List α)
    (hnd : (l.map key).Nodup) (hdisj : ∀ k ∈ l.map key, k ∉ seen) :
    dedupeAux key seen l = l := by
  induction l generalizing seen with
  | nil => simp [dedupeAux]
  | cons d rest ih =>
    rw [dedupeAux]
    simp only [List.map_cons, List.nodup_cons] at hnd
    rw [if_neg (hdisj (key d) (by simp))]
    congr 1
    refine ih _ hnd.2 ?_
    intro k hkmem
    simp only [List.mem_cons, not_or]
    exact ⟨fun hkd => hnd.1 (hkd ▸ hkmem), hdisj k (List.mem_cons_of_mem _ hkmem)⟩

theorem nodup_keys_dedupeBy (l : List α) : ((dedupeBy key l).map key).Nodup :=
  nodup_keys_dedupeAux key [] l

theorem dedupeBy_eq_self (l : List α) (hnd : (l.map key).Nodup) :
    dedupeBy key l = l :=
  dedupeAux_eq_self key [] l hnd (by simp)

theorem diversifyAux_sublist (cap : ℕ) (counts : String → ℕ) (l : List α) :
    diversifyAux key cap counts l <+ l := by
  induction l generalizing counts with
  | nil => simp [diversifyAux]
  | cons d rest ih =>
    rw [diversifyAux]
    split
    · exact (ih counts).cons d
    · exact (ih _).cons₂ d

theorem diversifyAux_cons (cap : ℕ) (counts : String → ℕ) (d : α) (rest : List α) :
    diversifyAux key cap counts (d :: rest) =
      if counts (key d) ≥ cap then diversifyAux key cap counts rest
      else d :: diversifyAux key cap
        (fun x => if x = key d then counts x + 1 else counts x) rest := rfl

theorem diversifyAux_count (cap : ℕ) (k : String) (l : List α)
    (counts : String → ℕ) :
    counts k + countKey key k (diversifyAux key cap counts l) ≤
      max cap (counts k) := by
  induction l generalizing counts with
  | nil => simp [diversifyAux, countKey_nil]
  | cons d rest ih =>
    rw [diversifyAux_cons]
    split
    · next hskip => exact ih counts
    · next hkeep =>
      push_neg at hkeep
      rw [countKey_cons]
      have hih := ih (fun x => if x = key d then counts x + 1 else counts x)
      by_cases hdk : key d = k
      · subst hdk
        have h1 : (if key d = key d then counts (key d) + 1 else counts (key d))
            = counts (key d) + 1 := if_pos rfl
        rw [h1] at hih
        have h2 : max cap (counts (key d) + 1) = cap := max_eq_left (by omega)
        rw [h2] at hih
        have h3 : cap ≤ max cap (counts (key d)) := le_max_left _ _
        rw [if_pos rfl]
        omega
      · have h1 : (if k = key d then counts k + 1 else counts k)
            = counts k := if_neg (fun he => hdk he.symm)
        rw [h1] at hih
        rw [if_neg hdk]
        omega

theorem diversifyAux_eq_self (cap : ℕ) (l : List α) (counts : String → ℕ)
    (h : ∀ k, counts k + countKey key k l ≤ cap) :
    diversifyAux key cap counts l = l := by
  induction l generalizing counts with
  | nil => simp [diversifyAux]
  | cons d rest ih =>
    have hd := h (key d)
    rw [countKey_cons, if_pos rfl] at hd
    rw [diversifyAux_cons, if_neg (by omega)]
    congr 1
    refine ih _ ?_
    intro k2
    show (if k2 = key d then counts k2 + 1 else counts k2) +
      countKey key k2 rest ≤ cap
    by_cases hk : k2 = key d
    · have hh := h k2
      rw [countKey_cons, if_pos hk.symm] at hh
      rw [if_pos hk]
      omega
    · have hh := h k2
      rw [countKey_cons, if_neg (fun he => hk he.symm)] at hh
      rw [if_neg hk]
      omega

end PipelineLemmas

section SortLemmas

variable {α : Type} (score : α → ℚ)

theorem sortDescBy_perm (l : List α) : sortDescBy score l ~ l :=
  List.perm_insertionSort _ l

theorem sortDescBy_sorted (l : List α) :
    (sortDescBy score l).Sorted (fun a b => score a ≥ score b) := by
  haveI : IsTotal α (fun a b => score a ≥ score b) :=
    ⟨fun a b => le_total (score b) (score a)⟩
  haveI : IsTrans α (fun a b => score a ≥ score b) :=
    ⟨fun _ _ _ hab hbc => le_trans hbc hab⟩
  exact List.sorted_insertionSort _ l

theorem sortDescBy_eq_self {l : List α}
    (h : l.Sorted (fun a b => score a ≥ score b)) : sortDescBy score l = l :=
  h.insertionSort_eq

end SortLemmas

/-- Diversification from a zero count bounds every bucket by the cap. -/
theorem diversify_count_le {α : Type} (key : α → String) (cap : ℕ) (k : String)
    (l : List α) :
    countKey key k (diversifyAux key cap (fun _ => 0) l) ≤ cap := by
  have h := diversifyAux_count key cap k l (fun _ => 0)
  simpa using h

/-- `countKey` is invariant under mapping a key-preserving function. -/
theorem countKey_map {α β : Type} (keyA : α → String) (keyB : β → String)
    (f : α → β) (hf : ∀ d, keyB (f d) = keyA d) (k : String) (l : List α) :
    countKey keyB k (l.map f) = countKey keyA k l := by
  induction l with
  | nil => rfl
  | cons d rest ih =>
    rw [List.map_cons, countKey_cons, countKey_cons, hf, ih]

/-- Documents whose `source_id` equals `v` are a subset of the diversify
bucket of `v`, so their count is bounded by the bucket count. -/
theorem filter_source_le_bucket {α : Type} (source : α → Option PyVal)
    (v : Option PyVal) (l : List α) :
    (l.filter (fun d => source d == v)).length ≤
      countKey (fun d => diversifyKeyOf (source d)) (diversifyKeyOf v) l := by
  refine List.Sublist.length_le ?_
  refine List.monotone_filter_right l ?_
  intro d hd
  have : source d = v := by simpa using hd
  simp [this]

/-- Bucket-count bound for `MergeNode.run` with an arbitrary configuration. -/
theorem mergeRun_source_bound (cfg : MergeCfg) (G : List (List Doc))
    (v : Option PyVal) :
    ((mergeRun cfg G).filter (fun d => d.source_id == v)).length ≤
      cfg.maxPerSource := by
  refine le_trans (filter_source_le_bucket MDoc.source_id v _) ?_
  set dkey := fun (d : MDoc) => diversifyKeyOf d.source_id with hdkey
  set D := dedupeBy mergeDocKey (mergeNormalizeGroups G) with hD
  set V := mergeDiversify cfg.maxPerSource D with hV
  have h1 : mergeRun cfg G <+ sortDescBy MDoc.score V := List.take_sublist _ _
  have h2 : countKey dkey (diversifyKeyOf v) (mergeRun cfg G) ≤
      countKey dkey (diversifyKeyOf v) (sortDescBy MDoc.score V) :=
    countKey_le_of_sublist dkey _ h1
  have h3 : countKey dkey (diversifyKeyOf v) (sortDescBy MDoc.score V) =
      countKey dkey (diversifyKeyOf v) V :=
    countKey_eq_of_perm dkey _ (sortDescBy_perm MDoc.score V)
  have h4 : countKey dkey (diversifyKeyOf v) V ≤ cfg.maxPerSource :=
    diversify_count_le dkey cfg.maxPerSource _ _
  omega

/-- Bucket-count bound for `PostprocessNode.run` with an arbitrary
configuration. -/
theorem postRun_source_bound (cfg : PostCfg) (docs : List Doc)
    (v : Option PyVal) :
    ((postRun cfg docs).filter (fun d => d.source_id == v)).length ≤
      cfg.maxPerSource := by
  refine le_trans (filter_source_le_bucket PDoc.source_id v _) ?_
  set dkey := fun (d : PDoc) => diversifyKeyOf d.source_id with hdkey
  set D := dedupeBy postDocKey (docs.map postToDocDict) with hD
  set V := postDiversify cfg.maxPerSource D with hV
  have hcomp : ∀ d, dkey (compressDoc cfg.maxCharsPerDoc d) = dkey d := by
    intro d
    simp [compressDoc, hdkey]
  have h1 : postRun cfg docs <+
      (sortDescBy PDoc.score V).map (compressDoc cfg.maxCharsPerDoc) :=
    List.take_sublist _ _
  have h2 : countKey dkey (diversifyKeyOf v) (postRun cfg docs) ≤
      countKey dkey (diversifyKeyOf v)
        ((sortDescBy PDoc.score V).map (compressDoc cfg.maxCharsPerDoc)) :=
    countKey_le_of_sublist dkey _ h1
  have h3 : countKey dkey (diversifyKeyOf v)
      ((sortDescBy PDoc.score V).map (compressDoc cfg.maxCharsPerDoc)) =
      countKey dkey (diversifyKeyOf v) (sortDescBy PDoc.score V) :=
    countKey_map dkey dkey _ hcomp _ _
  have h4 : countKey dkey (diversifyKeyOf v) (sortDescBy PDoc.score V) =
      countKey dkey (diversifyKeyOf v) V :=
    countKey_eq_of_perm dkey _ (sortDescBy_perm PDoc.score V)
  have h5 : countKey dkey (diversifyKeyOf v) V ≤ cfg.maxPerSource :=
    diversify_count_le dkey cfg.maxPerSource _ _
  omega

/-- C3: for every input and every source identity, the outputs of
`MergeNode.run` and `PostprocessNode.run` each contain at most
`max_per_source` documents whose `source_id` is that identity (the
constructors clamp `max_per_source` to at least 1; the default is 2). -/
theorem C3_diversity_cap :
    (∀ (top_k max_per_source : ℤ) (G : List (List Doc)) (v : Option PyVal),
      ((mergeRun (mkMergeCfg top_k max_per_source) G).filter
        (fun d => d.source_id == v)).length ≤
        (mkMergeCfg top_k max_per_source).maxPerSource) ∧
    (∀ (top_k max_per_source max_chars : ℤ) (docs : List Doc) (v : Option PyVal),
      ((postRun (mkPostCfg top_k max_per_source max_chars) docs).filter
        (fun d => d.source_id == v)).length ≤
        (mkPostCfg top_k max_per_source max_chars).maxPerSource) :=
  ⟨fun t m G v => mergeRun_source_bound (mkMergeCfg t m) G v,
   fun t m c docs v => postRun_source_bound (mkPostCfg t m c) docs v⟩

/-- C2 (amended): the distance→similarity transform is strictly
antitone on nonnegative distances, and similarity scores pass through
`_normalize_score` unchanged. For negative distances the clamp
`max(distance, 0)` collapses both to similarity `1`, see the
counterexample. -/
theorem C2_score_normalization_amended :
    (∀ d1 d2 : ℚ, 0 ≤ d1 → d1 < d2 →
      normalizeScore (.num d2) (.str "distance") <
        normalizeScore (.num d1) (.str "distance")) ∧
    (∀ q : ℚ, normalizeScore (.num q) (.str "similarity") = q) := by
  have hval : ∀ d : ℚ, normalizeScore (.num d) (.str "distance") =
      1 / (1 + max d 0) := fun d => rfl
  constructor
  · intro d1 d2 h0 hlt
    have hm1 : max d1 0 = d1 := max_eq_left h0
    have hm2 : max d2 0 = d2 := max_eq_left (le_trans h0 (le_of_lt hlt))
    rw [hval d1, hval d2, hm1, hm2]
    exact one_div_lt_one_div_of_lt (by linarith) (by linarith)
  · intro q
    rfl

/-- C2 counterexample: the claim quantifies over any two distances
`d1 < d2`, but for `d1 = -2 < d2 = -1` the clamp maps both to
similarity `1`, so the strict inequality fails on the code. -/
theorem C2_counterexample :
    (-2 : ℚ) < -1 ∧
    normalizeScore (.num (-2)) (.str "distance") =
      normalizeScore (.num (-1)) (.str "distance") := by
  constructor
  · norm_num
  · simp [normalizeScore, valToFloat, pyStr, PyVal.truthy]

/-- C2 witness: the amended monotonicity applied at distances 0 < 1 and a
similarity pass-through at score 5. -/
theorem C2_witness :
    normalizeScore (.num 1) (.str "distance") <
      normalizeScore (.num 0) (.str "distance") ∧
    normalizeScore (.num 5) (.str "similarity") = 5 :=
  ⟨C2_score_normalization_amended.1 0 1 (by norm_num) (by norm_num),
   C2_score_normalization_amended.2 5⟩

/-- C10: both constructors clamp their configuration — `top_k` and
`max_per_source` to at least 1, `max_chars_per_doc` to at least 100 — so
`run` truncates with caps no smaller than these floors, and a merger
configured with `top_k = 0` still returns one document on a singleton
input. -/
theorem C10_constructor_clamps :
    (∀ top_k max_per_source : ℤ,
      1 ≤ (mkMergeCfg top_k max_per_source).topK ∧
      1 ≤ (mkMergeCfg top_k max_per_source).maxPerSource) ∧
    (∀ top_k max_per_source max_chars : ℤ,
      1 ≤ (mkPostCfg top_k max_per_source max_chars).topK ∧
      1 ≤ (mkPostCfg top_k max_per_source max_chars).maxPerSource ∧
      100 ≤ (mkPostCfg top_k max_per_source max_chars).maxCharsPerDoc) ∧
    (∀ (top_k max_per_source : ℤ) (G : List (List Doc)),
      (mergeRun (mkMergeCfg top_k max_per_source) G).length ≤
        (max 1 top_k).toNat) ∧
    (∀ (top_k max_per_source max_chars : ℤ) (docs : List Doc),
      (postRun (mkPostCfg top_k max_per_source max_chars) docs).length ≤
        (max 1 top_k).toNat) ∧
    (mergeRun (mkMergeCfg 0 2)
      [[Doc.dict { content := some (.str "only doc") }]]).length = 1 := by
  refine ⟨?_, ?_, ?_, ?_, ?_⟩
  · intro t m
    constructor <;> simp [mkMergeCfg]
  · intro t m c
    refine ⟨?_, ?_, ?_⟩ <;> simp [mkPostCfg]
  · intro t m G
    exact List.length_take_le _ _
  · intro t m c docs
    exact List.length_take_le _ _
  · decide

/-! ## C1: merge idempotence -/

/-- Re-normalization stability of a merged document: its `doc_id` is
`None` or truthy, its `source_id` is truthy or `None` with a falsy
metadata `source_id` (Python `or` would otherwise replace a falsy value
such as `""` by `None`, or resurrect a metadata value), its content is
truthy or the empty string, and its `score_type` is `"similarity"` (the
last is automatic for `MergeNode.run` outputs). -/
def renormOk (d : MDoc) : Bool :=
  (d.doc_id.isNone || truthyOpt d.doc_id) &&
  (truthyOpt d.source_id ||
    (d.source_id.isNone && !(truthyOpt d.metadata.source_id))) &&
  (d.content.truthy || d.content == PyVal.str "") &&
  (d.score_type == "similarity")

/-- A re-normalization-stable merged document passes through
`_to_doc_dict` + `_normalize_score` unchanged. -/
theorem mergeNormDoc_asDoc (d : MDoc) (h : renormOk d = true) :
    mergeNormDoc d.asDoc = d := by
  simp only [renormOk, Bool.and_eq_true, Bool.or_eq_true] at h
  obtain ⟨⟨⟨h1, h2⟩, h3⟩, h4⟩ := h
  have hst : d.score_type = "similarity" := by simpa using h4
  have hdoc : pyOr d.doc_id none = d.doc_id := by
    rcases hd : d.doc_id with _ | v
    · rfl
    · rw [hd] at h1
      rcases h1 with h1 | h1
      · simp at h1
      · simp only [truthyOpt] at h1
        simp [pyOr, h1]
  have hsrc : pyOr d.source_id (pyOr d.metadata.source_id none) =
      d.source_id := by
    rcases hs : d.source_id with _ | v
    · rw [hs] at h2
      rcases h2 with h2 | h2
      · simp [truthyOpt] at h2
      · rcases hms : d.metadata.source_id with _ | w
        · rfl
        · rw [hms] at h2
          simp only [truthyOpt, Bool.and_eq_true] at h2
          have hw : w.truthy = false := by simpa using h2.2
          simp [pyOr, hw]
    · rw [hs] at h2
      rcases h2 with h2 | h2
      · simp only [truthyOpt] at h2
        simp [pyOr, h2]
      · simp at h2
  have hcont : pyOrEnd (pyOr (some d.content) none) (.str "") = d.content := by
    rcases h3 with h3 | h3
    · simp [pyOr, pyOrEnd, h3]
    · have : d.content = .str "" := by simpa using h3
      simp [pyOr, pyOrEnd, this, PyVal.truthy]
  have htype : pyOrEnd (pyOr (some (PyVal.str d.score_type))
      d.metadata.score_type) (.str "similarity") = .str "similarity" := by
    rw [hst]
    simp [pyOr, pyOrEnd, PyVal.truthy]
  have hscore : normalizeScore (.num d.score) (.str "similarity") = d.score := rfl
  simp only [mergeNormDoc, mergeToDocDict, MDoc.asDoc, Option.getD_some]
  rw [hdoc, hsrc, hcont, htype, hscore]
  cases d
  simp_all

/-- C1 (amended): merging is idempotent for every group list `G` whose
merged output consists of re-normalization-stable documents (`renormOk`):
`MergeNode.run([MergeNode.run(G)]) = MergeNode.run(G)`. Without that
stability a second merge rewrites falsy identifiers (see the
counterexample, where a document whose only identifier is `""` has its
`doc_id`/`source_id` rewritten from `""` to `None` by the second pass). -/
theorem C1_merge_idempotent_amended (cfg : MergeCfg) (G : List (List Doc))
    (h : ∀ d ∈ mergeRun cfg G, renormOk d = true) :
    mergeRun cfg [(mergeRun cfg G).map MDoc.asDoc] = mergeRun cfg G := by
  set dkey := fun (d : MDoc) => diversifyKeyOf d.source_id with hdkey
  set N := mergeNormalizeGroups G with hN
  set D := dedupeBy mergeDocKey N with hD
  set S := sortDescBy MDoc.score D with hS
  set V := diversifyAux dkey cfg.maxPerSource (fun _ => 0) S with hV
  set S2 := sortDescBy MDoc.score V with hS2
  have hMrun : mergeRun cfg G = S2.take cfg.topK := rfl
  set M := S2.take cfg.topK with hM
  -- Step 1: re-normalizing the merged output is the identity.
  have hnorm : mergeNormalizeGroups [M.map MDoc.asDoc] = M := by
    show ((([M.map MDoc.asDoc]).map (fun g => g.map mergeNormDoc)).flatten) = M
    simp only [List.map_cons, List.map_nil, List.flatten_cons, List.flatten_nil,
      List.append_nil, List.map_map]
    have : ∀ d ∈ M, (mergeNormDoc ∘ MDoc.asDoc) d = id d := by
      intro d hd
      exact mergeNormDoc_asDoc d (h d (hMrun ▸ hd))
    rw [List.map_congr_left this, List.map_id]
  -- Step 2: the merged output has pairwise-distinct dedupe keys.
  have hMnodup : (M.map mergeDocKey).Nodup := by
    have hDnodup : (D.map mergeDocKey).Nodup := nodup_keys_dedupeBy _ N
    have hSperm : S.map mergeDocKey ~ D.map mergeDocKey :=
      (sortDescBy_perm MDoc.score D).map _
    have hSnodup : (S.map mergeDocKey).Nodup := hSperm.nodup_iff.mpr hDnodup
    have hVnodup : (V.map mergeDocKey).Nodup :=
      hSnodup.sublist ((diversifyAux_sublist dkey _ _ S).map _)
    have hS2nodup : (S2.map mergeDocKey).Nodup :=
      (((sortDescBy_perm MDoc.score V).map _).nodup_iff).mpr hVnodup
    exact hS2nodup.sublist ((List.take_sublist _ _).map _)
  -- Step 3: per-bucket counts of the merged output are within the cap.
  have hMcount : ∀ k, countKey dkey k M ≤ cfg.maxPerSource := by
    intro k
    have h1 : countKey dkey k M ≤ countKey dkey k S2 :=
      countKey_le_of_sublist dkey k (List.take_sublist _ _)
    have h2 : countKey dkey k S2 = countKey dkey k V :=
      countKey_eq_of_perm dkey k (sortDescBy_perm MDoc.score V)
    have h3 : countKey dkey k V ≤ cfg.maxPerSource :=
      diversify_count_le dkey cfg.maxPerSource k S
    omega
  -- Step 4: the merged output is sorted descending by score.
  have hMsorted : M.Sorted (fun a b => MDoc.score a ≥ MDoc.score b) :=
    (sortDescBy_sorted MDoc.score V).sublist (List.take_sublist _ _)
  have hMsort : sortDescBy MDoc.score M = M := sortDescBy_eq_self _ hMsorted
  -- Step 5: the merged output is within the top-k limit.
  have hMlen : M.length ≤ cfg.topK := List.length_take_le _ _
  -- Assemble.
  show (sortDescBy MDoc.score (mergeDiversify cfg.maxPerSource
    (dedupeBy mergeDocKey (mergeNormalizeGroups [M.map MDoc.asDoc])))).take
      cfg.topK = M
  rw [hnorm, dedupeBy_eq_self mergeDocKey M hMnodup]
  have hdiv : mergeDiversify cfg.maxPerSource M = M := by
    show diversifyAux dkey cfg.maxPerSource (fun _ => 0)
      (sortDescBy MDoc.score M) = M
    rw [hMsort]
    exact diversifyAux_eq_self dkey cfg.maxPerSource M (fun _ => 0)
      (fun k => by simpa using hMcount k)
  rw [hdiv, hMsort]
  exact List.take_of_length_le hMlen

/-- C1 counterexample: for a document whose only identifier is the empty
string, the first merge sets `doc_id = source_id = ""` (Python `or`
returns its last falsy operand), while the second merge rewrites both to
`None`, so merging the merged output differs from the merged output. -/
theorem C1_counterexample :
    mergeRun (mkMergeCfg 5 2)
      [(mergeRun (mkMergeCfg 5 2) [[Doc.dict { id := some (.str "") }]]).map
        MDoc.asDoc] ≠
    mergeRun (mkMergeCfg 5 2) [[Doc.dict { id := some (.str "") }]] := by
  decide

/-- The witness document for the amended idempotence: a dict document
with a truthy identifier. -/
def c1WitnessGroups : List (List Doc) :=
  [[Doc.dict { id := some (.str "a"), content := some (.str "hello"), score := some (.num 1) }]]

/-- C1 witness: the amended idempotence applied to a concrete group list
with a truthy identifier. -/
theorem C1_witness :
    (∀ d ∈ mergeRun (mkMergeCfg 5 2) c1WitnessGroups, renormOk d = true) ∧
    mergeRun (mkMergeCfg 5 2)
        [(mergeRun (mkMergeCfg 5 2) c1WitnessGroups).map MDoc.asDoc] =
      mergeRun (mkMergeCfg 5 2) c1WitnessGroups :=
  ⟨by decide, C1_merge_idempotent_amended (mkMergeCfg 5 2) c1WitnessGroups (by decide)⟩

/-! ## AsyncSearchNode (`core/rag/nodes/async_search_node.py`) -/

/-- `AsyncSearchNode._normalize_queries` inner loop: collapse whitespace,
drop empty results and queries already collected. -/
def normalizeQueriesAux (acc : List String) : List String → List String
  | [] => acc
  | q :: rest =>
    let t := collapseWs q
    if t = "" then normalizeQueriesAux acc rest
    else if t ∈ acc then normalizeQueriesAux acc rest
    else normalizeQueriesAux (acc ++ [t]) rest

/-- `AsyncSearchNode._normalize_queries`. -/
def normalizeQueries (queries : List String) : List String :=
  normalizeQueriesAux [] queries

/-- `AsyncSearchNode._extract_score`s candidate loop: the first numeric
candidate (or parsable string) wins; unparsable strings and `None` are
skipped; the fallback is `0.0`. -/
def firstScoreCandidate : List (Option PyVal) → ℚ
  | [] => 0
  | c :: rest =>
    match c with
    | some (.num q) => q
    | some (.str s) =>
      match parseFloat s with
      | some q => q
      | none => firstScoreCandidate rest
    | none => firstScoreCandidate rest

/-- `AsyncSearchNode._extract_score`. -/
def extractScore (d : Option DocDict) (m : Meta) : ℚ :=
  let docCands :=
    match d with
    | some dd => [dd.score, dd.similarity, dd.distance]
    | none => []
  firstScoreCandidate (docCands ++ [m.score, m.similarity, m.distance])

/-- A `score_type` value that is the string `"distance"` or
`"similarity"`. -/
def isScoreTypeStr : Option PyVal → Option String
  | some (.str t) => if t = "distance" ∨ t = "similarity" then some t else none
  | _ => none

/-- The metadata fallback of `AsyncSearchNode._extract_score_type`. -/
def metaScoreType (m : Meta) : String :=
  match isScoreTypeStr m.score_type with
  | some t => t
  | none => if m.distance.isSome then "distance" else "similarity"

/-- `AsyncSearchNode._extract_score_type`. -/
def extractScoreType (d : Option DocDict) (m : Meta) : String :=
  match d with
  | some dd =>
    match isScoreTypeStr dd.score_type with
    | some t => t
    | none =>
      if dd.distance.isSome then "distance"
      else if dd.similarity.isSome then "similarity"
      else metaScoreType m
  | none => metaScoreType m

/-- A document after `AsyncSearchNode._normalize_doc`. -/
structure ADoc where
  doc_id : Option PyVal
  source_id : Option PyVal
  content : PyVal
  metadata : Meta
  score : ℚ
  score_type : String
  retrieval_query : String
deriving Repr, DecidableEq

/-- `AsyncSearchNode._normalize_doc`. -/
def asyncNormalizeDoc (q : String) : Doc → ADoc
  | .dict d =>
    let m := d.metadata.getD {}
    { doc_id := pyOr d.doc_id d.id
      source_id := pyOr d.source_id (pyOr d.id m.source_id)
      content := pyOrEnd (pyOr d.content d.page_content) (.str "")
      metadata := m
      score := extractScore (some d) m
      score_type := extractScoreType (some d) m
      retrieval_query := q }
  | .obj o =>
    let m := o.metadata.getD {}
    { doc_id := o.id
      source_id := pyOr m.source_id m.id
      content := pyOrEnd o.page_content (.str o.strRepr)
      metadata := m
      score := extractScore none m
      score_type := extractScoreType none m
      retrieval_query := q }

/-- The retrieval capability seen by one `search_one` task. A retriever
is an optional function; applying it to a query yields `none` when the
underlying search raises or times out (the `except Exception` /
`asyncio.wait_for` path) and `some docs` when it returns. The
interface-detection in `_search_with_retriever` and `_to_list` is
absorbed into this oracle. -/
def searchOne (retriever : Option (String → Option (List Doc)))
    (q : String) : List ADoc :=
  match retriever with
  | none => []
  | some f =>
    match f q with
    | none => []
    | some docs => docs.map (asyncNormalizeDoc q)

/-- `AsyncSearchNode.run`: normalize the queries, then gather one result
list per normalized query (`asyncio.gather` preserves input order). -/
def asyncRun (queries : List String)
    (retriever : Option (String → Option (List Doc))) : List (List ADoc) :=
  let nq := normalizeQueries queries
  if nq = [] then []
  else
    match retriever with
    | none => nq.map (fun _ => [])
    | some f => nq.map (fun q => searchOne (some f) q)

/-- C4 (amended): `AsyncSearchNode.run` returns one result list per
normalized sub-query (whitespace-collapsed, empty and duplicate queries
removed), in the same order and of the same length as the normalized
list; a sub-query whose search fails or times out yields the empty list
at its own position, independently of its siblings, and the call never
raises. -/
theorem C4_async_search_amended :
    (∀ (queries : List String) (retriever : Option (String → Option (List Doc))),
      asyncRun queries retriever =
        (normalizeQueries queries).map (searchOne retriever)) ∧
    (∀ (f : String → Option (List Doc)) (q : String),
      f q = none → searchOne (some f) q = []) := by
  constructor
  · intro queries retriever
    unfold asyncRun
    by_cases hq : normalizeQueries queries = []
    · simp [hq]
    · cases retriever with
      | none =>
        rw [if_neg hq]
        exact List.map_congr_left (fun q _ => rfl)
      | some f => simp [hq]
  · intro f q hf
    simp [searchOne, hf]

/-- C4 counterexample: the claim promises one result list per input
sub-query, but duplicate queries are collapsed before searching: for the
input `["a", "a"]` (no retriever) the output has length 1, not 2. -/
theorem C4_counterexample :
    (asyncRun ["a", "a"] none).length ≠ (["a", "a"] : List String).length := by
  decide

/-- C4 witness: a retriever that fails on the query `"x"` yields the
empty list there. -/
theorem C4_witness :
    (fun _ : String => (none : Option (List Doc))) "x" = none ∧
    searchOne (some (fun _ : String => (none : Option (List Doc)))) "x" = [] :=
  ⟨rfl, C4_async_search_amended.2 (fun _ => none) "x" rfl⟩

/-! ## AdaptiveHydeGraph judge (`core/rag/graphs/adaptive_hyde_graph.py`) -/

/-- A character matched by the token regex `[a-zA-Z0-9가-힣]`
(ASCII alphanumerics and Hangul syllables U+AC00 – U+D7A3). -/
def isQTokenChar (c : Char) : Bool :=
  c.isAlphanum || (0xAC00 ≤ c.toNat && c.toNat ≤ 0xD7A3)

/-- Python `str.lower()` over the modelled character domain (ASCII case
folding; Hangul has no case). -/
def toLowerChars (s : String) : List Char :=
  s.toList.map Char.toLower

/-- `_should_use_hyde`s question tokens: maximal alphanumeric runs of
the lowercased question, kept when at least 2 characters long. -/
def questionTokens (question : String) : List (List Char) :=
  (splitRuns isQTokenChar (toLowerChars question)).filter (fun t => t.length ≥ 2)

/-- Python substring test `t in l`. -/
def isSubList (t : List Char) : List Char → Bool
  | [] => t.isEmpty
  | l@(_ :: rest) => t.isPrefixOf l || isSubList t rest

/-- `AdaptiveHydeGraph._doc_text`: dict documents yield
`str(content or page_content or "")`, objects yield
`str(page_content or str(doc))` (a plain-string document behaves like an
object whose `str` is itself). -/
def hydeDocText : Doc → String
  | .dict d => pyStr (pyOrEnd (pyOr d.content d.page_content) (.str ""))
  | .obj o =>
    let pc := o.page_content.getD (.str "")
    if pc.truthy then pyStr pc else o.strRepr

/-- The number of baseline documents whose lowercased text contains at
least one question token (the `hit_count` loop of `_should_use_hyde`). -/
def hitCount (question : String) (docs : List Doc) : ℕ :=
  (docs.filter (fun d =>
    (questionTokens question).any
      (fun t => isSubList t (toLowerChars (hydeDocText d))))).length

/-- `AdaptiveHydeGraph._should_use_hyde`. -/
def shouldUseHyde (question : String) (docs : List Doc) : Bool :=
  if docs.length = 0 then true
  else if questionTokens question = [] then false
  else decide (hitCount question docs < max 1 (docs.length / 2))

/-- C5 (amended): the judge flags the baseline retrieval insufficient
exactly when there are zero baseline documents, or the question has at
least one token (case-insensitive alphanumeric runs of length ≥ 2) and
strictly fewer than `max(1, ⌊n/2⌋)` of the `n` baseline documents
contain a question token. (The claim's "fewer than half" differs at odd
document counts, and a token-free question is always judged
sufficient.) -/
theorem C5_judge_amended (question : String) (docs : List Doc) :
    shouldUseHyde question docs = true ↔
      (docs = [] ∨ (questionTokens question ≠ [] ∧
        hitCount question docs < max 1 (docs.length / 2))) := by
  unfold shouldUseHyde
  by_cases h0 : docs.length = 0
  · simp [h0, List.length_eq_zero.mp h0]
  · have hne : docs ≠ [] := fun h => h0 (by simp [h])
    by_cases hq : questionTokens question = []
    · simp [h0, hq, hne]
    · simp [h0, hq, hne]

/-- C5 counterexample: for the question `"alpha"` and three baseline
documents of which exactly one contains the token, the claim's
"fewer than half" rule (`2·hits < n`, here `2 < 3`) flags insufficient,
but the code compares against `max(1, 3 // 2) = 1` and judges the
retrieval sufficient. -/
theorem C5_counterexample :
    shouldUseHyde "alpha"
      [Doc.dict { content := some (.str "alpha beta") },
       Doc.dict { content := some (.str "zzz") },
       Doc.dict { content := some (.str "yyy") }] = false ∧
    ([Doc.dict { content := some (.str "alpha beta") },
      Doc.dict { content := some (.str "zzz") },
      Doc.dict { content := some (.str "yyy") }] : List Doc).length ≠ 0 ∧
    2 * hitCount "alpha"
      [Doc.dict { content := some (.str "alpha beta") },
       Doc.dict { content := some (.str "zzz") },
       Doc.dict { content := some (.str "yyy") }] <
    ([Doc.dict { content := some (.str "alpha beta") },
      Doc.dict { content := some (.str "zzz") },
      Doc.dict { content := some (.str "yyy") }] : List Doc).length := by
  refine ⟨?_, by decide, ?_⟩ <;> decide

/-! ## StreamAnswerNode (`core/rag/nodes/stream_answer_node.py`) -/

/-- The chunking automaton behind `re.findall(r"\\S+\\s*", s)`: a chunk is
a maximal nonspace run together with the whitespace run that follows it;
whitespace before the first nonspace character matches no chunk. `cur`
holds the currently open chunk in reverse, `inSp` records whether the
open chunk has entered its trailing-whitespace part. -/
def chunksAux (cur : List Char) (inSp : Bool) : List Char → List (List Char)
  | [] => if cur = [] then [] else [cur.reverse]
  | c :: rest =>
    if c.isWhitespace then
      if cur = [] then chunksAux [] false rest
      else chunksAux (c :: cur) true rest
    else
      if inSp then cur.reverse :: chunksAux [c] false rest
      else chunksAux (c :: cur) false rest

/-- `re.findall(r"\\S+\\s*", s)` over a character list. -/
def pyFindChunks (l : List Char) : List (List Char) :=
  chunksAux [] false l

/-- `StreamAnswerNode._split_answer`: strip the answer, return no tokens
when empty, otherwise the `\\S+\\s*` chunks (whitespace is kept so the
client can reassemble the text). -/
def splitAnswer (answer : String) : List (List Char) :=
  if stripChars answer.toList = [] then [] else pyFindChunks (stripChars answer.toList)

/-- One streamed token event of `StreamAnswerNode.run` (the `type` field
is always `"token"`; the trailing `end` event carries no index). -/
structure TokenEvt where
  status : String
  content : List Char
  index : Option ℕ
deriving Repr, DecidableEq

/-- `StreamAnswerNode.run`s emission sequence: one `in_progress` token
event per chunk, numbered from `seq_start`, then a single `end` token
event with empty content. -/
def streamAnswerEvents (answer : String) (seqStart : ℕ) : List TokenEvt :=
  ((splitAnswer answer).enum.map (fun it =>
    { status := "in_progress", content := it.2, index := some (seqStart + it.1) })) ++
  [{ status := "end", content := [], index := none }]

/-- Joining the chunks of an open automaton state restores the remaining
input (prefixed by the open chunk). -/
theorem chunksAux_flatten_ne (l : List Char) :
    ∀ (cur : List Char) (inSp : Bool), cur ≠ [] →
      (chunksAux cur inSp l).flatten = cur.reverse ++ l := by
  induction l with
  | nil =>
    intro cur inSp hcur
    simp [chunksAux, hcur]
  | cons c rest ih =>
    intro cur inSp hcur
    rw [chunksAux]
    by_cases hw : c.isWhitespace
    · rw [if_pos hw, if_neg hcur, ih (c :: cur) true (by simp)]
      simp
    · rw [if_neg hw]
      by_cases hsp : inSp
      · rw [if_pos hsp]
        rw [List.flatten_cons, ih [c] false (by simp)]
        simp
      · rw [if_neg hsp, ih (c :: cur) false (by simp)]
        simp

/-- Joining all chunks of a string restores it up to the unmatched
leading whitespace. -/
theorem pyFindChunks_flatten (l : List Char) :
    (pyFindChunks l).flatten = l.dropWhile Char.isWhitespace := by
  unfold pyFindChunks
  induction l with
  | nil => simp [chunksAux]
  | cons c rest ih =>
    rw [chunksAux]
    by_cases hw : c.isWhitespace
    · rw [if_pos hw, if_pos rfl, List.dropWhile_cons_of_pos hw]
      exact ih
    · rw [if_neg hw, if_neg (by simp), List.dropWhile_cons_of_neg hw,
        chunksAux_flatten_ne rest [c] false (by simp)]
      simp

/-- The head of a `dropWhile` result falsifies the predicate. -/
theorem dropWhile_head_false {p : Char → Bool} {c : Char} {cs : List Char} :
    ∀ l : List Char, l.dropWhile p = c :: cs → p c = false := by
  intro l
  induction l with
  | nil => intro h; simp at h
  | cons x xs ih =>
    intro h
    rw [List.dropWhile_cons] at h
    by_cases hp : p x
    · rw [if_pos hp] at h
      exact ih h
    · rw [if_neg hp] at h
      obtain ⟨rfl, -⟩ := List.cons.inj h
      exact Bool.not_eq_true _ ▸ eq_false_of_ne_true hp

/-- A stripped string has no leading whitespace left to drop. -/
theorem stripChars_dropWhile (l : List Char) :
    (stripChars l).dropWhile Char.isWhitespace = stripChars l := by
  set m := l.dropWhile Char.isWhitespace with hm
  have hpre : stripChars l <+: m := by
    rw [stripChars, ← hm]
    have hsuf : (m.reverse.dropWhile Char.isWhitespace) <:+ m.reverse :=
      List.dropWhile_suffix _
    have h2 := List.reverse_prefix.mpr hsuf
    rwa [List.reverse_reverse] at h2
  obtain ⟨t, ht⟩ := hpre
  rcases hs : stripChars l with _ | ⟨c, cs⟩
  · rfl
  · have hmc : l.dropWhile Char.isWhitespace = c :: (cs ++ t) := by
      rw [← hm, ← ht, hs]
      simp
    have hnw : Char.isWhitespace c = false := dropWhile_head_false l hmc
    rw [List.dropWhile_cons_of_neg (by simp [hnw])]

/-- Projecting `in_progress` token contents out of a chunk-indexed event
list recovers the chunks. -/
theorem filterMap_inProgress (seqStart : ℕ) (P : List (ℕ × List Char)) :
    List.filterMap
      (fun e : TokenEvt => if e.status = "in_progress" then some e.content else none)
      (P.map (fun it =>
        ({ status := "in_progress", content := it.2,
           index := some (seqStart + it.1) } : TokenEvt))) =
    P.map (fun it => it.2) := by
  induction P with
  | nil => rfl
  | cons p ps ih => simp [ih]

/-- C7 (amended): concatenating the `content` fields of the
`in_progress` token events emitted by `StreamAnswerNode.run`
reconstructs the *stripped* answer text exactly (each chunk keeps its
trailing whitespace, but `_split_answer` strips the answer first, so
leading/trailing whitespace of the original answer is lost — see the
counterexample). -/
theorem C7_stream_reconstruction_amended (answer : String) (seqStart : ℕ) :
    ((streamAnswerEvents answer seqStart).filterMap
      (fun e => if e.status = "in_progress" then some e.content else none)).flatten =
      stripChars answer.toList := by
  unfold streamAnswerEvents
  rw [List.filterMap_append]
  have hend : List.filterMap
      (fun e => if e.status = "in_progress" then some e.content else none)
      [({ status := "end", content := [], index := none } : TokenEvt)] = [] := by
    simp
  rw [hend, List.append_nil, filterMap_inProgress]
  have henum : (splitAnswer answer).enum.map (fun it => it.2) = splitAnswer answer := by
    simp
  rw [henum]
  unfold splitAnswer
  by_cases hc : stripChars answer.toList = []
  · rw [if_pos hc, hc]
    rfl
  · rw [if_neg hc, pyFindChunks_flatten, stripChars_dropWhile]

/-- C7 counterexample: for the answer `"hi "` the emitted `in_progress`
contents concatenate to `"hi"`, not the original `"hi "`: the trailing
whitespace of the whole answer is removed by the strip step, so exact
reconstruction of the original answer fails. -/
theorem C7_counterexample :
    ((streamAnswerEvents "hi " 1).filterMap
      (fun e => if e.status = "in_progress" then some e.content else none)).flatten ≠
      "hi ".toList := by
  decide

/-! ## ChatStreamEventQueue (`core/common/queue/chat_stream_event_queue.py`) -/

/-- A top-level event field value: a scalar or a list of scalars (the
only shapes the validation distinguishes). -/
inductive PyTop where
  | scalar (v : PyVal)
  | lst (l : List PyVal)
deriving Repr, DecidableEq

/-- Python `str()` of a top-level value. Element quoting inside the list
rendering is elided: the validation only ever asks whether the rendered
string is empty after stripping, and a list renders to at least `"[]"`. -/
def pyTopStr : PyTop → String
  | .scalar v => pyStr v
  | .lst l => "[" ++ String.intercalate ", " (l.map pyStr) ++ "]"

/-- Python `str.lower()` of a string (ASCII folding). -/
def lowerStr (s : String) : String :=
  String.mk (toLowerChars s)

/-- A streaming event `dict`. The named fields are the keys the queue
validation reads (`none` models a missing key or an explicit `None`);
`extra` carries any other keys bound to non-`None` values, which the
validation never consults. -/
structure Event where
  type : Option PyTop := none
  status : Option PyTop := none
  content : Option PyTop := none
  index : Option PyTop := none
  items : Option PyTop := none
  extra : List (String × PyTop) := []
deriving Repr, DecidableEq

/-- `ChatStreamEventQueue._normalize_event_type`. -/
def normalizeEventType : Option PyTop → Option String
  | none => none
  | some v =>
    let s := pyTopStr v
    if lowerStr s = "done" then some "DONE" else some s

/-- `isinstance(items, list)`. -/
def isListVal : Option PyTop → Bool
  | some (.lst _) => true
  | _ => false

/-- The `in_progress` status value. -/
def statusInProgress : Option PyTop := some (.scalar (.str "in_progress"))

/-- The `end` status value. -/
def statusEnd : Option PyTop := some (.scalar (.str "end"))

/-- `ChatStreamEventQueue._validate_event`: `none` means the event
passes, `some msg` models the raised `ValueError`. -/
def validateEvent (e : Event) : Option String :=
  let et := normalizeEventType e.type
  if et = some "token" then
    if ¬ (e.status = statusInProgress ∨ e.status = statusEnd) then
      some "token status must be in_progress or end"
    else if e.status = statusInProgress ∧ e.content = none then
      some "token in_progress requires content"
    else if e.items ≠ none then
      some "token may not carry items"
    else none
  else if et = some "references" then
    if e.status ≠ statusEnd then
      some "references status must be end"
    else if ¬ isListVal e.items then
      some "references requires items list"
    else if e.content ≠ none then
      some "references may not carry content"
    else none
  else if et = some "error" then
    if e.content = none ∨ pyStripStr (pyTopStr (e.content.getD (.scalar (.str "")))) = "" then
      some "error requires content"
    else if e.status ≠ none ∧ e.status ≠ statusEnd then
      some "error status may only be end"
    else none
  else if et = some "DONE" then
    if e.status ≠ none ∨ e.content ≠ none ∨ e.index ≠ none ∨ e.items ≠ none then
      some "DONE may not carry fields other than type"
    else none
  else some "unsupported event type"

/-- `ChatStreamEventQueue.push_event` against the in-memory backend for
one job key. The JSON round trip is lossless on the modelled events and
every modelled value serialises, so the per-key list of serialised
events is modelled as the list of events; a raised `ValueError` is the
`Except.error` case and leaves the queue untouched. -/
def pushEvent (q : List Event) (e : Event) : Except String (List Event) :=
  if e.type = none then .error "event.type field required"
  else
    match validateEvent e with
    | some msg => .error msg
    | none => .ok (q ++ [e])

/-- The per-type field rules, stated declaratively: this is the rule set
of the amended claim (for `done`, only the `status`, `content`, `index`
and `items` fields are constrained). -/
def EventOk (e : Event) : Prop :=
  (normalizeEventType e.type = some "token" ∧
    (e.status = statusInProgress ∨ e.status = statusEnd) ∧
    (e.status = statusInProgress → e.content ≠ none) ∧
    e.items = none) ∨
  (normalizeEventType e.type = some "references" ∧
    e.status = statusEnd ∧
    isListVal e.items = true ∧
    e.content = none) ∨
  (normalizeEventType e.type = some "error" ∧
    (∃ v, e.content = some v ∧ pyStripStr (pyTopStr v) ≠ "") ∧
    (e.status = none ∨ e.status = statusEnd)) ∨
  (normalizeEventType e.type = some "DONE" ∧
    e.status = none ∧ e.content = none ∧ e.index = none ∧ e.items = none)

/-- An if-chain over three guards yields `none` exactly when every
guard fails. -/
theorem if3_none_iff {A B C : Prop} [Decidable A] [Decidable B] [Decidable C]
    (m1 m2 m3 : String) :
    (if A then some m1 else if B then some m2 else if C then some m3
      else (none : Option String)) = none ↔ (¬ A ∧ ¬ B ∧ ¬ C) := by
  split_ifs <;> simp_all

/-- An if-chain over two guards yields `none` exactly when both fail. -/
theorem if2_none_iff {A B : Prop} [Decidable A] [Decidable B] (m1 m2 : String) :
    (if A then some m1 else if B then some m2
      else (none : Option String)) = none ↔ (¬ A ∧ ¬ B) := by
  split_ifs <;> simp_all

/-- A single guard yields `none` exactly when it fails. -/
theorem if1_none_iff {A : Prop} [Decidable A] (m1 : String) :
    (if A then some m1 else (none : Option String)) = none ↔ ¬ A := by
  split_ifs <;> simp_all

/-- Existence of a nonempty content value matches the negated emptiness
test of the code. -/
theorem error_content_iff (e : Event) :
    (∃ v, e.content = some v ∧ pyStripStr (pyTopStr v) ≠ "") ↔
      ¬ (e.content = none ∨
        pyStripStr (pyTopStr (e.content.getD (.scalar (.str "")))) = "") := by
  cases hc : e.content with
  | none => simp
  | some v => simp [hc]

/-- The sequential validation agrees with the declarative rule set. -/
theorem validateEvent_eq_none_iff (e : Event) (ht : e.type ≠ none) :
    validateEvent e = none ↔ EventOk e := by
  rcases hety : normalizeEventType e.type with _ | et
  · rcases he : e.type with _ | v
    · exact absurd he ht
    · rw [he] at hety
      unfold normalizeEventType at hety
      by_cases hd : lowerStr (pyTopStr v) = "done" <;> simp [hd] at hety
  · by_cases h1 : et = "token"
    · subst h1
      have hval : validateEvent e =
          (if ¬ (e.status = statusInProgress ∨ e.status = statusEnd) then
            some "token status must be in_progress or end"
          else if e.status = statusInProgress ∧ e.content = none then
            some "token in_progress requires content"
          else if e.items ≠ none then some "token may not carry items"
          else none) := by
        unfold validateEvent
        rw [hety]
        simp only [Option.some.injEq, String.reduceEq, reduceIte, if_true, if_false]
      rw [hval, if3_none_iff]
      unfold EventOk
      rw [hety]
      simp only [Option.some.injEq, String.reduceEq, false_and, or_false,
        false_or, true_and]
      tauto
    · by_cases h2 : et = "references"
      · subst h2
        have hval : validateEvent e =
            (if e.status ≠ statusEnd then some "references status must be end"
            else if ¬ isListVal e.items then some "references requires items list"
            else if e.content ≠ none then some "references may not carry content"
            else none) := by
          unfold validateEvent
          rw [hety]
          simp only [Option.some.injEq, String.reduceEq, reduceIte, if_true, if_false]
        rw [hval, if3_none_iff]
        unfold EventOk
        rw [hety]
        simp only [Option.some.injEq, String.reduceEq, false_and, or_false,
          false_or, true_and]
        tauto
      · by_cases h3 : et = "error"
        · subst h3
          have hval : validateEvent e =
              (if e.content = none ∨
                  pyStripStr (pyTopStr (e.content.getD (.scalar (.str "")))) = "" then
                some "error requires content"
              else if e.status ≠ none ∧ e.status ≠ statusEnd then
                some "error status may only be end"
              else none) := by
            unfold validateEvent
            rw [hety]
            simp only [Option.some.injEq, String.reduceEq, reduceIte, if_true, if_false]
          rw [hval, if2_none_iff]
          unfold EventOk
          rw [hety]
          simp only [Option.some.injEq, String.reduceEq, false_and, or_false,
            false_or, true_and]
          rw [show (∃ v, e.content = some v ∧ pyStripStr (pyTopStr v) ≠ "") ↔
            ¬ (e.content = none ∨
              pyStripStr (pyTopStr (e.content.getD (.scalar (.str "")))) = "") from
            error_content_iff e]
          tauto
        · by_cases h4 : et = "DONE"
          · subst h4
            have hval : validateEvent e =
                (if e.status ≠ none ∨ e.content ≠ none ∨ e.index ≠ none ∨
                    e.items ≠ none then
                  some "DONE may not carry fields other than type"
                else none) := by
              unfold validateEvent
              rw [hety]
              simp only [Option.some.injEq, String.reduceEq, reduceIte, if_true, if_false]
            rw [hval, if1_none_iff]
            unfold EventOk
            rw [hety]
            simp only [Option.some.injEq, String.reduceEq, false_and, or_false,
              false_or, true_and]
            tauto
          · have hval : validateEvent e = some "unsupported event type" := by
              unfold validateEvent
              rw [hety]
              rw [if_neg (by simpa using h1), if_neg (by simpa using h2),
                if_neg (by simpa using h3), if_neg (by simpa using h4)]
            rw [hval]
            unfold EventOk
            rw [hety]
            simp [h1, h2, h3, h4]

/-- C6 (amended): `push_event` raises a `ValueError` (and appends
nothing) exactly when the event lacks a known type or violates its
per-type field rules — token: status in `{in_progress, end}`, content
required when `in_progress`, no items; references: status `end`, items a
list, no content; error: non-empty content, status absent or `end`;
done: *the `status`, `content`, `index` and `items` fields* must be
null. Keys outside these are not checked (see the counterexample);
otherwise the event is appended to the job's queue unchanged. -/
theorem C6_push_event_amended (q : List Event) (e : Event) :
    pushEvent q e = .ok (q ++ [e]) ↔ EventOk e := by
  unfold pushEvent
  by_cases ht : e.type = none
  · rw [if_pos ht]
    constructor
    · intro hv
      simp at hv
    · intro hv
      rcases hv with ⟨habs, -⟩ | ⟨habs, -⟩ | ⟨habs, -⟩ | ⟨habs, -⟩
      all_goals rw [ht] at habs
      all_goals simp [normalizeEventType] at habs
  · rw [if_neg ht]
    rcases hv : validateEvent e with _ | msg
    · simp [(validateEvent_eq_none_iff e ht).mp hv]
    · have : ¬ EventOk e := fun hok =>
        by simp [(validateEvent_eq_none_iff e ht).mpr hok] at hv
      simp [this]

/-- C6 counterexample: a `done` event carrying an extra non-null key
(here `trace_id`) violates the claim's rule that no field other than
`type` may be non-null, yet `_validate_event` only checks `status`,
`content`, `index` and `items`, so `push_event` appends it instead of
raising. -/
theorem C6_counterexample :
    pushEvent [] { type := some (.scalar (.str "done")),
                   extra := [("trace_id", .scalar (.str "t"))] } =
      .ok [{ type := some (.scalar (.str "done")),
             extra := [("trace_id", .scalar (.str "t"))] }] ∧
    ({ type := some (.scalar (.str "done")),
       extra := [("trace_id", .scalar (.str "t"))] } : Event).extra ≠ [] := by
  constructor
  · rfl
  · decide

/-! ## RagJobService (`api/rag/service/rag_job_service.py`) -/

/-- One `JobStreamResponse` event as stored in the in-memory per-job
event list (`type` plus optional status/content/index/items). -/
structure JobEvent where
  type : String
  status : Option String := none
  content : Option String := none
  index : Option ℤ := none
  items : Option (List PyVal) := none
deriving Repr, DecidableEq

/-- One job record: the `_jobs[job_id]` entry together with its
`_job_events[job_id]` list (`trace_id`/`thread_id`/query are carried by
the real record but never influence the event stream shape). -/
structure JobRec where
  status : String
  canceled : Bool
  events : List JobEvent
  lastSeq : ℕ
deriving Repr, DecidableEq

/-- The service's job table, as an association list. -/
def ServiceState : Type := List (String × JobRec)

/-- Dictionary lookup. -/
def lookupJob : ServiceState → String → Option JobRec
  | [], _ => none
  | (k, r) :: rest, jid => if k = jid then some r else lookupJob rest jid

/-- Dictionary update (insert or overwrite). -/
def setJob : ServiceState → String → JobRec → ServiceState
  | [], jid, r => [(jid, r)]
  | (k, r0) :: rest, jid, r =>
    if k = jid then (jid, r) :: rest else (k, r0) :: setJob rest jid r

theorem lookupJob_setJob_self (s : ServiceState) (jid : String) (r : JobRec) :
    lookupJob (setJob s jid r) jid = some r := by
  induction s with
  | nil => simp [setJob, lookupJob]
  | cons p rest ih =>
    obtain ⟨k, r0⟩ := p
    by_cases hk : k = jid
    · simp [setJob, hk, lookupJob]
    · simp [setJob, hk, lookupJob, ih]

/-- The cancellation message pushed by `RagJobService.cancel`. -/
def cancelMsg : String := "작업이 취소되었습니다."

/-- The error event appended by `cancel`. -/
def errCancelEvent : JobEvent :=
  { type := "error", status := some "end", content := some cancelMsg }

/-- The terminal `DONE` event. -/
def doneEvent : JobEvent := { type := "DONE" }

/-- The error event returned for an unknown job id. -/
def notFoundEvent : JobEvent :=
  { type := "error", status := some "end",
    content := some "존재하지 않는 job_id입니다." }

/-- `RagJobService._append_event` restricted to the in-memory store
(no external event queue is configured): append and update `last_seq`
to the new list length. -/
def appendEvent (r : JobRec) (e : JobEvent) : JobRec :=
  { r with events := r.events ++ [e], lastSeq := r.events.length + 1 }

/-- `RagJobService._append_done_event`: append a `DONE` event unless the
last stored event is already `DONE`. -/
def appendDone (r : JobRec) : JobRec :=
  match r.events.getLast? with
  | some ev => if ev.type = "DONE" then r else appendEvent r doneEvent
  | none => appendEvent r doneEvent

/-- `RagJobService.create_job` (with no job-queue backend, enqueueing is
a no-op): register a fresh queued record with an empty event list. -/
def createJob (s : ServiceState) (jid : String) : ServiceState :=
  setJob s jid { status := "queued", canceled := false, events := [], lastSeq := 0 }

/-- `RagJobService.cancel`: unknown and terminal jobs are left alone;
otherwise the cancel flag and status are set and `error(cancelled)`
followed by `DONE` are appended. -/
def cancelJob (s : ServiceState) (jid : String) : ServiceState :=
  match lookupJob s jid with
  | none => s
  | some r =>
    if r.status = "completed" ∨ r.status = "failed" ∨ r.status = "canceled" then s
    else
      setJob s jid
        (appendDone (appendEvent
          { r with canceled := true, status := "canceled" } errCancelEvent))

/-- `RagJobService._materialize_inmemory_result_if_needed`. The
queued/running branch — run the pipeline graph and stream its answer and
sources into events, or emit an error event if that raises — is
abstracted by the `worker` oracle, which yields the emitted events and
the terminal status; both its outcomes end with the `_append_done_event`
guarantee, which is kept explicit. -/
def materialize (worker : JobRec → List JobEvent × String) (r : JobRec) : JobRec :=
  if r.status = "completed" ∨ r.status = "failed" then r
  else if r.status = "canceled" then appendDone r
  else
    let out := worker r
    appendDone { r with events := r.events ++ out.1, status := out.2 }

/-- `RagJobService.stream_events` (no external event queue, so the drain
step is a no-op): unknown jobs stream `error, DONE`; otherwise the
in-memory result is materialized if needed and the job's event list is
returned in order (each event is serialized to one SSE line by
`to_sse_line`, which is injective on the modelled events). -/
def streamEvents (worker : JobRec → List JobEvent × String)
    (s : ServiceState) (jid : String) : List JobEvent × ServiceState :=
  match lookupJob s jid with
  | none => ([notFoundEvent, doneEvent], s)
  | some r =>
    let r2 := materialize worker r
    (r2.events, setJob s jid r2)

/-- C9: if a job is cancelled after creation and before any worker picks
it up, the stream subsequently returned for it is exactly one error
event carrying the cancellation message followed by one `DONE` event —
no token events and no references events, for every prior service state
and every worker behaviour. -/
theorem C9_cancellation_precedence (s0 : ServiceState) (jid : String)
    (worker : JobRec → List JobEvent × String) :
    (streamEvents worker (cancelJob (createJob s0 jid) jid) jid).1 =
      [errCancelEvent, doneEvent] := by
  unfold createJob cancelJob
  rw [lookupJob_setJob_self]
  simp only [String.reduceEq, or_self, or_false, false_or, if_false, reduceIte]
  unfold streamEvents
  rw [lookupJob_setJob_self]
  rfl

/-! ## ErrorCode / SafeguardLabel (`core/rag/const/`) -/

/-- `ErrorCode` (`const/error_code.py`), in definition order. -/
inductive ErrorCode where
  | VALIDATION | TIMEOUT
  | RETRIEVAL_EMPTY | RETRIEVAL_FAILED | POSTPROCESS_FAILED
  | LLM_FAILED | MODEL_OUTPUT_INVALID
  | TOOL | QUEUE_FAILED | STREAM_FAILED | REDIS_FAILED
  | SAFEGUARD | PROMPT_INJECTION | PII | HARMFUL
  | UNKNOWN
deriving Repr, DecidableEq

/-- `ErrorCode.code`. -/
def ErrorCode.code : ErrorCode → String
  | .VALIDATION => "validation_error"
  | .TIMEOUT => "timeout"
  | .RETRIEVAL_EMPTY => "retrieval_empty"
  | .RETRIEVAL_FAILED => "retrieval_failed"
  | .POSTPROCESS_FAILED => "postprocess_failed"
  | .LLM_FAILED => "llm_failed"
  | .MODEL_OUTPUT_INVALID => "model_output_invalid"
  | .TOOL => "tool_error"
  | .QUEUE_FAILED => "queue_failed"
  | .STREAM_FAILED => "stream_failed"
  | .REDIS_FAILED => "redis_failed"
  | .SAFEGUARD => "safeguard_blocked"
  | .PROMPT_INJECTION => "prompt_injection_blocked"
  | .PII => "pii_blocked"
  | .HARMFUL => "harmful_blocked"
  | .UNKNOWN => "unknown_error"

/-- `ErrorCode.user_message`. -/
def ErrorCode.userMessage : ErrorCode → String
  | .VALIDATION => "출력 형식 오류로 간단 요약을 제공합니다."
  | .TIMEOUT => "처리가 지연되었습니다. 잠시 후 다시 시도해 주세요."
  | .RETRIEVAL_EMPTY => "관련 정보를 찾지 못했습니다. 일반 설명을 제공합니다."
  | .RETRIEVAL_FAILED => "검색 처리 중 문제가 발생했습니다. 다시 시도해 주세요."
  | .POSTPROCESS_FAILED => "후처리 중 문제가 발생해 기본 응답을 제공합니다."
  | .LLM_FAILED => "답변 생성 중 문제가 발생해 기본 응답을 제공합니다."
  | .MODEL_OUTPUT_INVALID => "모델 출력 형식이 올바르지 않아 기본 응답을 제공합니다."
  | .TOOL => "외부 도구 호출에 실패했습니다. 기본 안내만 제공합니다."
  | .QUEUE_FAILED => "작업 큐 처리 중 오류가 발생했습니다."
  | .STREAM_FAILED => "스트리밍 처리 중 오류가 발생했습니다."
  | .REDIS_FAILED => "저장소 연결에 문제가 발생했습니다."
  | .SAFEGUARD => "요청을 처리할 수 없습니다. 다른 질문을 해주세요."
  | .PROMPT_INJECTION => "안전하지 않은 요청으로 판단되어 차단되었습니다."
  | .PII => "개인정보 보호 정책에 따라 요청을 처리할 수 없습니다."
  | .HARMFUL => "유해 요청으로 분류되어 처리할 수 없습니다."
  | .UNKNOWN => "처리 중 문제가 발생했습니다. 잠시 후 다시 시도해 주세요."

/-- The `for item in cls` iteration order of the enum. -/
def errorCodeList : List ErrorCode :=
  [.VALIDATION, .TIMEOUT, .RETRIEVAL_EMPTY, .RETRIEVAL_FAILED,
   .POSTPROCESS_FAILED, .LLM_FAILED, .MODEL_OUTPUT_INVALID, .TOOL,
   .QUEUE_FAILED, .STREAM_FAILED, .REDIS_FAILED, .SAFEGUARD,
   .PROMPT_INJECTION, .PII, .HARMFUL, .UNKNOWN]

/-- `ErrorCode.from_code`: strip and lowercase, match against the codes,
defaulting to `UNKNOWN`. -/
def ErrorCode.fromCode (c : Option String) : ErrorCode :=
  match c with
  | none => .UNKNOWN
  | some s =>
    let normalized := lowerStr (pyStripStr s)
    match errorCodeList.find? (fun e => e.code = normalized) with
    | some e => e
    | none => .UNKNOWN

/-- `SafeguardLabel` (`const/safeguard_label.py`). -/
inductive SafeguardLabel where
  | PASS | PII | HARMFUL | PROMPT_INJECTION
deriving Repr, DecidableEq

/-- `SafeguardLabel.value`. -/
def SafeguardLabel.value : SafeguardLabel → String
  | .PASS => "PASS"
  | .PII => "PII"
  | .HARMFUL => "HARMFUL"
  | .PROMPT_INJECTION => "PROMPT_INJECTION"

/-! ## RagPipelineGraph (`core/rag/graphs/rag_pipeline_graph.py`) -/

/-- Modelled from the spec: `FallbackNode`
(`thirdsession.core.rag.nodes.fallback_node`, imported by the pipeline
graph but not present under `src/`) maps an error code to the short,
non-technical user message of that code (§7: "every error kind maps to
one short, non-technical message"; §4.6 fallback answers). -/
def fallbackNodeRun (e : ErrorCode) : String :=
  e.userMessage

/-- Modelled from the spec: `DecideSummaryNode`
(`thirdsession.core.rag.nodes.decide_summary_node`, imported by the
pipeline graph with `summary_threshold=5` but not present under `src/`)
triggers the summary stage when the turn count exceeds the threshold
(§4.7: "triggered when turnCount exceeds a threshold (default 5)"). -/
def decideSummaryRun (threshold turnCount : ℤ) : Bool :=
  turnCount > threshold

/-- One history message (`{"role": ..., "content": ...}`). -/
structure RoleMsg where
  role : String
  content : String
deriving Repr, DecidableEq

/-- The request-metadata keys the pipeline graph reads (the `retriever`
and `store` entries select collaborators and are absorbed into the
retrieval oracle, as are `top_k`/`collection`, which are only injected
into those collaborators by `_with_request_options`). -/
structure ReqMeta where
  language : Option PyVal := none
deriving Repr, DecidableEq

/-- A document dict produced by `RagPipelineGraph._to_doc_dict`. -/
structure PipeDoc where
  doc_id : Option PyVal
  id : Option PyVal
  source_id : Option PyVal
  title : Option PyVal
  content : PyVal
  snippet : Option PyVal
  score : Option PyVal
  score_type : PyVal
  metadata : Meta
deriving Repr, DecidableEq

/-- `RagPipelineGraph._to_doc_dict`. -/
def pipeToDocDict : Doc → PipeDoc
  | .dict d =>
    { doc_id := d.doc_id
      id := d.id
      source_id := d.source_id
      title := d.title
      content := pyOrEnd (pyOr d.content d.page_content) (.str "")
      snippet := d.snippet
      score := some (d.score.getD (.num 0))
      score_type := d.score_type.getD (.str "similarity")
      metadata := d.metadata.getD {} }
  | .obj o =>
    let m := o.metadata.getD {}
    { doc_id := o.doc_id
      id := o.id
      source_id := m.source_id
      title := m.title
      content := pyOrEnd o.page_content (.str o.strRepr)
      snippet := none
      score := some (m.score.getD (.num 0))
      score_type := m.score_type.getD (.str "similarity")
      metadata := m }

/-- A response `source` item built by `_to_source_item`. Slicing the
snippet presupposes a string content in Python; non-string contents
(which would raise a `TypeError` there) are rendered through `str`. -/
structure SourceItem where
  source_id : String
  title : Option PyVal
  snippet : String
  score : Option PyVal
  metadata : Meta
deriving Repr, DecidableEq

/-- `RagPipelineGraph._to_source_item`. -/
def toSourceItem (idx : ℕ) (doc : Doc) : SourceItem :=
  let data := pipeToDocDict doc
  { source_id := pyStr (pyOrEnd (pyOr data.source_id (pyOr data.doc_id data.id))
      (.str ("source-" ++ toString idx)))
    title := data.title
    snippet := stringTake 300
      (pyStr (pyOrEnd (pyOr (some data.content) data.snippet) (.str "")))
    score := data.score
    metadata := data.metadata }

/-- `enumerate(contexts, start=1)` over `_to_source_item`. -/
def toSourceItemsAux (idx : ℕ) : List Doc → List SourceItem
  | [] => []
  | d :: rest => toSourceItem idx d :: toSourceItemsAux (idx + 1) rest

/-- The pipeline state (`ChatState`; its TypedDict declaration lives in
`state/chat_state.py`, outside `src/` — the fields are those read and
written by the graph code). -/
structure ChatState where
  question : String
  history : List RoleMsg := []
  summary : Option String := none
  turn_count : ℤ := 0
  contexts : List Doc := []
  answer : Option String := none
  last_user_message : Option String := none
  last_assistant_message : Option String := none
  route : Option String := none
  error_code : Option String := none
  safeguard_label : Option String := none
  trace_id : Option String := none
  thread_id : Option String := none
  session_id : Option String := none
  user_id : Option String := none
  metadata : ReqMeta := {}
  sources : List SourceItem := []
  retrieval_stats : Option (ℕ × ℕ) := none
deriving Repr, DecidableEq

/-- The outcome of `SafeguardNode.run` inside `_node_safeguard`s
`try/except`: a label, a non-label return value (passed through `str`),
`NotImplementedError` (keyword fallback), or any other exception
(treated as `PASS`). -/
inductive SafeguardOutcome where
  | label (l : SafeguardLabel)
  | other (s : String)
  | notImplemented
  | failure
deriving Repr, DecidableEq

/-- `RagPipelineGraph._fallback_safeguard`: keyword screen over the
lowercased question. -/
def fallbackSafeguard (question : String) : String :=
  let lowered := toLowerChars question
  let blocked := ["주민번호", "비밀번호", "신용카드", "폭탄", "악성코드", "프롬프트 인젝션"]
  if blocked.any (fun kw => isSubList kw.toList lowered) then
    SafeguardLabel.HARMFUL.value
  else SafeguardLabel.PASS.value

/-- The label string stored by `_node_safeguard`. -/
def nodeSafeguardLabel (o : SafeguardOutcome) (question : String) : String :=
  match o with
  | .label l => l.value
  | .other s => s
  | .notImplemented => fallbackSafeguard question
  | .failure => SafeguardLabel.PASS.value

/-- The collaborator-dependent outcomes of one pipeline run:
`retrieve` models `query_decompose_graph.run(...) + adaptive_hyde_graph.run(...)`
(`.ok` the concatenated document lists, `.error` an exception already
mapped through `ErrorCode.from_exception`); `llm` models the
`AnswerGenerationNode` LLM chain (`none` = no client, `.error` = raised,
`.ok` = returned text); `summaryText` models `SummaryNode.run`. -/
structure PipelineOracle where
  safeguard : SafeguardOutcome
  retrieve : Except ErrorCode (List Doc)
  llm : Option (Except Unit String)
  summaryText : String

/-- `_node_safeguard`. -/
def nodeSafeguard (o : SafeguardOutcome) (st : ChatState) : ChatState :=
  { st with safeguard_label := some (nodeSafeguardLabel o st.question) }

/-- `_node_retrieve`: on success, contexts are the concatenated
retrieval results; on any exception the mapped error code is stored
with empty contexts and the `retrieve_failed` route. -/
def nodeRetrieve (outcome : Except ErrorCode (List Doc)) (st : ChatState) :
    ChatState :=
  match outcome with
  | .error ec =>
    { st with
      contexts := []
      route := some "retrieve_failed"
      error_code := some ec.code }
  | .ok docs =>
    { st with
      contexts := docs
      route := some "query_decompose+adaptive_hyde" }

/-- `_node_policy_filter`: keep documents whose metadata `access_level`
is absent or `"public"` and whose `language` does not conflict with the
requested language; the original document objects are kept. -/
def nodePolicyFilter (st : ChatState) : ChatState :=
  let allowed := st.metadata.language
  { st with contexts := st.contexts.filter (fun doc =>
      let m := (pipeToDocDict doc).metadata
      (m.access_level = none ∨ m.access_level = some (.str "public")) ∧
      (allowed = none ∨ m.language = none ∨ m.language = allowed)) }

/-- `_node_normalize`: rebuild each document as the common dict with the
score moved to similarity space (non-numeric scores become `0.0`). -/
def nodeNormalize (st : ChatState) : ChatState :=
  { st with contexts := st.contexts.map (fun doc =>
      let src := pipeToDocDict doc
      let stype := pyStr (if src.score_type.truthy then src.score_type
        else .str "similarity")
      let score : ℚ :=
        match src.score with
        | some (.num q) => if stype = "distance" then 1 / (1 + max q 0) else q
        | _ => 0
      Doc.dict { doc_id := src.doc_id
                 id := src.id
                 source_id := src.source_id
                 title := src.title
                 content := some src.content
                 snippet := src.snippet
                 score := some (.num score)
                 score_type := some (.str "similarity")
                 metadata := some src.metadata }) }

/-- The dedupe key of `_node_merge`
(`str(source_id or doc_id or id or content)`). Every context reaching
this stage is a dict produced by `_node_normalize`; a non-dict would
raise `AttributeError` in Python and is keyed by its `str` here. -/
def stageDocKey : Doc → String
  | .dict d => pyStrOpt (pyOr d.source_id (pyOr d.doc_id (pyOr d.id d.content)))
  | .obj o => o.strRepr

/-- The sort key `float(item.get("score", 0.0))` of `_node_merge`
(post-normalize scores are numeric; a string is parsed as `float` would). -/
def stageScore : Doc → ℚ
  | .dict d => pyToFloat d.score
  | .obj _ => 0

/-- `_node_merge`: dedupe keeping first occurrences, then stable-sort by
score descending. -/
def nodeMerge (st : ChatState) : ChatState :=
  { st with contexts := sortDescBy stageScore (dedupeBy stageDocKey st.contexts) }

/-- `_node_postprocess` (the `PostprocessNode()` of the graph is built
with its defaults; its `run` is total in the model, so the exception
fallback path is not taken). -/
def nodePostprocess (st : ChatState) : ChatState :=
  { st with contexts := (postRun (mkPostCfg 5 2 500) st.contexts).map (fun p =>
      Doc.dict { doc_id := p.doc_id
                 source_id := p.source_id
                 title := p.title
                 content := some p.content
                 snippet := p.snippet
                 metadata := some p.metadata
                 score := some (.num p.score)
                 score_type := some p.score_type }) }

/-- One `[source_id] text` prompt line of
`AnswerGenerationNode._format_contexts` (`none` when the text strips to
empty and the line is skipped). -/
def agMkLine (idx : ℕ) : Doc → Option String
  | .dict d =>
    let text := pyStripStr (pyStr (pyOrEnd (pyOr d.content d.page_content) (.str "")))
    if text = "" then none
    else
      some ("[" ++
        pyStr (pyOrEnd (pyOr d.source_id d.id) (.str ("source-" ++ toString idx))) ++
        "] " ++ text)
  | .obj o =>
    let text := pyStripStr (pyStr (pyOrEnd o.page_content (.str o.strRepr)))
    if text = "" then none
    else
      let sid :=
        match o.metadata with
        | some m => pyOrEnd (pyOr m.source_id m.id) (.str ("source-" ++ toString idx))
        | none => .str ("source-" ++ toString idx)
      some ("[" ++ pyStr sid ++ "] " ++ text)

/-- The prompt lines, enumerated from 1. -/
def agLinesAux (idx : ℕ) : List Doc → List String
  | [] => []
  | d :: rest =>
    match agMkLine idx d with
    | none => agLinesAux (idx + 1) rest
    | some line => line :: agLinesAux (idx + 1) rest

/-- `AnswerGenerationNode._format_contexts`. -/
def agFormatContexts (contexts : List Doc) : String :=
  String.intercalate "\n" (agLinesAux 1 contexts)

/-- The message used when no grounding evidence is available. -/
def noEvidenceMsg : String := "관련 근거를 찾지 못해 답변을 제공하기 어렵습니다."

/-- One fallback bullet of `AnswerGenerationNode._fallback_answer`
(`none` when the text strips to empty). -/
def agFallbackPoint : Doc → Option String
  | .dict d =>
    let text := pyStripStr (pyStr (pyOrEnd (pyOr d.content d.page_content) (.str "")))
    if text = "" then none
    else
      let sid := pyStr (pyOrEnd (pyOr d.source_id d.id) (.str ""))
      let citation := if sid ≠ "" then "[" ++ sid ++ "] " else ""
      some ("- " ++ citation ++ stringTake 140 (collapseWs text))
  | .obj o =>
    let text := pyStripStr (pyStr (pyOrEnd o.page_content (.str o.strRepr)))
    if text = "" then none
    else
      let sid :=
        match o.metadata with
        | some m => pyStrOpt m.source_id
        | none => ""
      let citation := if sid ≠ "" then "[" ++ sid ++ "] " else ""
      some ("- " ++ citation ++ stringTake 140 (collapseWs text))

/-- `AnswerGenerationNode._fallback_answer`. -/
def agFallbackAnswer (question : String) (contexts : List Doc) : String :=
  if contexts = [] then noEvidenceMsg
  else
    let pts := (contexts.take 3).filterMap agFallbackPoint
    if pts = [] then noEvidenceMsg
    else "질문: " ++ question ++ "\n근거 기반 요약:\n" ++ String.intercalate "\n" pts

/-- `AnswerGenerationNode.run`: `(answer, used_llm_generation)`. -/
def answerGenRun (llm : Option (Except Unit String)) (question : String)
    (contexts : List Doc) : String × Bool :=
  if pyStripStr (agFormatContexts contexts) = "" then ("", false)
  else
    match llm with
    | none => (agFallbackAnswer question contexts, false)
    | some (.error _) => (agFallbackAnswer question contexts, false)
    | some (.ok ans) =>
      let normalized := collapseWs ans
      if normalized = "" then (agFallbackAnswer question contexts, false)
      else (normalized, true)

/-- `_node_generate`. -/
def nodeGenerate (llm : Option (Except Unit String)) (st : ChatState) : ChatState :=
  let contexts := st.contexts
  let question := st.question
  if st.safeguard_label = some "PII" ∨ st.safeguard_label = some "HARMFUL" ∨
      st.safeguard_label = some "PROMPT_INJECTION" then
    let ec :=
      if st.safeguard_label = some "PII" then ErrorCode.PII
      else if st.safeguard_label = some "HARMFUL" then ErrorCode.HARMFUL
      else ErrorCode.PROMPT_INJECTION
    let answer := fallbackNodeRun ec
    { st with
      answer := some answer
      sources := []
      error_code := some ec.code
      retrieval_stats := some (contexts.length, 0)
      history := [⟨"user", question⟩, ⟨"assistant", answer⟩]
      turn_count := 1
      last_user_message := some question
      last_assistant_message := some answer }
  else if contexts = [] then
    let ec :=
      match st.error_code with
      | some c => if c ≠ "" then ErrorCode.fromCode (some c) else .RETRIEVAL_EMPTY
      | none => .RETRIEVAL_EMPTY
    let answer := fallbackNodeRun ec
    { st with
      answer := some answer
      sources := []
      error_code := some ec.code
      retrieval_stats := some (0, 0)
      history := [⟨"user", question⟩, ⟨"assistant", answer⟩]
      turn_count := 1
      last_user_message := some question
      last_assistant_message := some answer }
  else
    let out := answerGenRun llm question contexts
    if pyStripStr out.1 = "" then
      let answer := fallbackNodeRun .LLM_FAILED
      { st with
        answer := some answer
        sources := []
        error_code := some ErrorCode.LLM_FAILED.code
        retrieval_stats := some (contexts.length, 0)
        history := [⟨"user", question⟩, ⟨"assistant", answer⟩]
        turn_count := 1
        last_user_message := some question
        last_assistant_message := some answer }
    else
      let sources := toSourceItemsAux 1 contexts
      { st with
        answer := some out.1
        sources := sources
        error_code := if out.2 then none else some ErrorCode.LLM_FAILED.code
        retrieval_stats := some (contexts.length, sources.length)
        history := [⟨"user", question⟩, ⟨"assistant", out.1⟩]
        turn_count := 1
        last_user_message := some question
        last_assistant_message := some out.1 }

/-- `RagPipelineGraph.run`: the linear stage chain with the conditional
summary edge (`run` itself only fills defaults for missing state keys,
which the typed state always carries). -/
def runPipeline (o : PipelineOracle) (st0 : ChatState) : ChatState :=
  let s7 := nodeGenerate o.llm
    (nodePostprocess (nodeMerge (nodeNormalize (nodePolicyFilter
      (nodeRetrieve o.retrieve (nodeSafeguard o.safeguard st0))))))
  if decideSummaryRun 5 s7.turn_count then { s7 with summary := some o.summaryText }
  else s7

/-- No error code renders as the empty string. -/
theorem errorCode_code_ne_empty (e : ErrorCode) : e.code ≠ "" := by
  cases e <;> decide

/-- `from_code` restores a code produced by `code`. -/
theorem errorCode_fromCode_code (e : ErrorCode) :
    ErrorCode.fromCode (some e.code) = e := by
  cases e <;> rfl

/-- Behaviour of `_node_generate` on an empty-context state that carries
a non-empty error code and a passing safeguard label. -/
theorem nodeGenerate_empty_contexts (llm : Option (Except Unit String))
    (st : ChatState) (c : String)
    (hsl : st.safeguard_label = some "PASS")
    (hctx : st.contexts = [])
    (herr : st.error_code = some c) (hcne : c ≠ "") :
    (nodeGenerate llm st).error_code = some (ErrorCode.fromCode (some c)).code ∧
    (nodeGenerate llm st).answer =
      some (fallbackNodeRun (ErrorCode.fromCode (some c))) ∧
    (nodeGenerate llm st).turn_count = 1 := by
  unfold nodeGenerate
  rw [hsl, hctx, herr]
  rw [if_neg (by simp), if_pos rfl]
  simp [hcne]

/-- C8 (amended): when the retrieve stage fails — the only pre-generate
stage that sets `error_code`, and it empties `contexts` alongside — and
the safeguard passes, the generate stage short-circuits to the fallback
answer derived from that error code and the output `error_code`
preserves it. (An `error_code` that was already set *on the input
state* is not protected: when retrieval succeeds and generation
produces an answer, generate overwrites it — with `None` when the LLM
answered — see the counterexample.) -/
theorem C8_error_code_amended (o : PipelineOracle) (st : ChatState)
    (ec : ErrorCode)
    (hret : o.retrieve = Except.error ec)
    (hsafe : nodeSafeguardLabel o.safeguard st.question = "PASS") :
    (runPipeline o st).error_code = some ec.code ∧
    (runPipeline o st).answer = some (fallbackNodeRun ec) := by
  have hchain : nodePostprocess (nodeMerge (nodeNormalize (nodePolicyFilter
      (nodeRetrieve (Except.error ec) (nodeSafeguard o.safeguard st))))) =
      { nodeSafeguard o.safeguard st with
        contexts := []
        route := some "retrieve_failed"
        error_code := some ec.code } := rfl
  have hsl : ({ nodeSafeguard o.safeguard st with
      contexts := ([] : List Doc)
      route := some "retrieve_failed"
      error_code := some ec.code } : ChatState).safeguard_label =
      some "PASS" := by
    simp [nodeSafeguard, hsafe]
  have hgen := nodeGenerate_empty_contexts o.llm
    { nodeSafeguard o.safeguard st with
      contexts := []
      route := some "retrieve_failed"
      error_code := some ec.code } ec.code hsl rfl rfl
    (errorCode_code_ne_empty ec)
  rw [errorCode_fromCode_code] at hgen
  unfold runPipeline
  rw [hret, hchain]
  rw [if_neg (by rw [hgen.2.2]; decide)]
  exact ⟨hgen.1, hgen.2.1⟩

/-- The oracle of the C8 counterexample: passing safeguard, a successful
retrieval of one public document, and an LLM that answers `"ans"`. -/
def c8Oracle : PipelineOracle :=
  { safeguard := .label .PASS
    retrieve := .ok [Doc.dict { source_id := some (.str "s1")
                                content := some (.str "ctx")
                                score := some (.num 1) }]
    llm := some (.ok "ans")
    summaryText := "" }

/-- The input state of the C8 counterexample: `error_code` is already
set to `"timeout"`. -/
def c8State : ChatState :=
  { question := "q", error_code := some "timeout" }

/-- C8 counterexample: with `error_code` already set on the input state,
a successful retrieval and generation run does not short-circuit — it
produces the LLM answer and resets `error_code` to `None`, silently
clearing it. -/
theorem C8_counterexample :
    c8State.error_code = some "timeout" ∧
    (runPipeline c8Oracle c8State).error_code = none ∧
    (runPipeline c8Oracle c8State).answer = some "ans" := by
  refine ⟨rfl, ?_, ?_⟩ <;> rfl

/-- The oracle of the C8 witness: the retrieval stage raises a timeout. -/
def c8WitnessOracle : PipelineOracle :=
  { safeguard := .label .PASS
    retrieve := .error .TIMEOUT
    llm := none
    summaryText := "" }

/-- C8 witness: the amended short-circuit applied to a retrieval
timeout. -/
theorem C8_witness :
    c8WitnessOracle.retrieve = Except.error ErrorCode.TIMEOUT ∧
    nodeSafeguardLabel c8WitnessOracle.safeguard "q" = "PASS" ∧
    (runPipeline c8WitnessOracle { question := "q" }).error_code =
      some ErrorCode.TIMEOUT.code ∧
    (runPipeline c8WitnessOracle { question := "q" }).answer =
      some (fallbackNodeRun ErrorCode.TIMEOUT) :=
  ⟨rfl, rfl,
   (C8_error_code_amended c8WitnessOracle { question := "q" } .TIMEOUT rfl rfl).1,
   (C8_error_code_amended c8WitnessOracle { question := "q" } .TIMEOUT rfl rfl).2⟩

end ThirdSession
